import Mathlib

/-! redis-port: resolution of the command-line flags (`cmd/flags.go`).

A shallow embedding of `parseFlagsFromArgs` and of the two package-level
variables it writes (`acceptDB`, `dbMap`), followed by theorems about it.

Conventions of the embedding

* Go `string` is `String`; `s[0]` and `s[1:]` are read on `s.data`.  The bytes
  the source compares against (`-`, `+`, `@`, `,`, `:` and the digits) are
  ASCII, so reading characters instead of bytes selects the same positions.
* Go `int` and `int64` are `Int` (64-bit platform); wrap-around is written
  with `wrapInt64` where a product is formed, `uint64` values are `Nat`.
* `time.Time` is the number of nanoseconds since the Unix epoch (`Int`),
  `time.Duration` is a number of nanoseconds (`Int`, kept inside the
  `int64` range by `Sub`).
* Library code that is not part of the repository and is not modelled here
  (docopt, `time.ParseDuration`, `time.Parse`, `strings.ToLower`,
  `bytesize.Parse`, the clock, the processor count, the build strings) is a
  field of `Env`.
* `log.Panicf` / `log.PanicErrorf` print a diagnostic and end the process
  with a non-zero status: outcome `fatal`, tagged with the option and the raw
  string the diagnostic quotes.
-/

namespace RedisPort

/-! ## Go values and the docopt option map -/

/-- A value stored in docopt's `map[string]interface{}`; `nil` is also what
the lookup of a missing key gives. -/
inductive Value
  | nil
  | bool (b : Bool)
  | str (s : String)
  | other
  deriving DecidableEq, Repr

/-- The option map `d` returned by `docopt.Parse`; `d key` is `d[key]`. -/
abbrev Args := String → Value

/-- The comma-ok type assertion `s, ok := v.(string)`. -/
def Value.asString : Value → Option String
  | .str s => some s
  | _ => none

/-- The guard `s, ok := v.(string); ok && s != ""`. -/
def Value.nonEmptyString : Value → Option String
  | .str s => if s = "" then none else some s
  | _ => none

/-! ## strconv -/

/-- Value of a decimal digit byte, `none` for any other character. -/
def digitVal (c : Char) : Option Nat :=
  if 48 ≤ c.toNat ∧ c.toNat ≤ 57 then some (c.toNat - 48) else none

/-- The digit loop of `strconv.ParseUint` in base 10 (no overflow cut-off:
the caller compares the exact value with the bounds). -/
def parseDigits : List Char → Nat → Option Nat
  | [], acc => some acc
  | c :: cs, acc =>
    match digitVal c with
    | some v => parseDigits cs (acc * 10 + v)
    | none => none

/-- The magnitude part of `ParseInt`: at least one digit, digits only. -/
def parseMagnitude (ds : List Char) : Option Nat :=
  match ds with
  | [] => none
  | _ :: _ => parseDigits ds 0

/-- `strconv.ParseInt(s, 10, 64)`: an optional sign, then decimal digits;
`none` when `err != nil` (syntax error or value outside the `int64` range). -/
def ParseInt (s : String) : Option Int :=
  match s.data with
  | [] => none
  | c :: cs =>
    if c = '-' then
      match parseMagnitude cs with
      | some un => if un ≤ 2 ^ 63 then some (-(un : Int)) else none
      | none => none
    else
      match parseMagnitude (if c = '+' then cs else c :: cs) with
      | some un => if un < 2 ^ 63 then some (un : Int) else none
      | none => none

/-- `strconv.Atoi(s)`: `ParseInt(s, 10, 0)` with a 64-bit `int`. -/
def Atoi (s : String) : Option Int :=
  ParseInt s

/-- The conversion `uint64(n)` of an `int`. -/
def uint64 (n : Int) : Nat :=
  (n % 2 ^ 64).toNat

/-- Reduction of an integer to the `int64` range (two's complement). -/
def wrapInt64 (x : Int) : Int :=
  (x + 2 ^ 63) % 2 ^ 64 - 2 ^ 63

/-! ## strings -/

/-- Splitting of a character list at every occurrence of `sep`. -/
def splitChars (sep : Char) : List Char → List (List Char)
  | [] => [[]]
  | c :: cs =>
    if c = sep then [] :: splitChars sep cs
    else
      match splitChars sep cs with
      | [] => [[c]]
      | f :: fs => (c :: f) :: fs

/-- `strings.Split(s, sep)` for a one-byte separator. -/
def Split (s : String) (sep : Char) : List String :=
  (splitChars sep s.data).map String.mk

/-! ## time -/

/-- Smallest `time.Duration`. -/
def minDuration : Int := -(2 ^ 63)

/-- Largest `time.Duration`. -/
def maxDuration : Int := 2 ^ 63 - 1

/-- `time.Unix(sec, nsec)`: the instant `sec` seconds and `nsec` nanoseconds
after the epoch. -/
def Unix (sec nsec : Int) : Int :=
  sec * 1000000000 + nsec

/-- `t.Sub(u)`: the duration `t - u`, saturated to the `Duration` range. -/
def Sub (t u : Int) : Int :=
  if t - u < minDuration then minDuration
  else if maxDuration < t - u then maxDuration
  else t - u

/-! ## The environment of one call -/

/-- What the call reads from outside the source file. -/
structure Env where
  /-- Result of `docopt.Parse(usage, args, true, "", false)`; `none`: `err != nil`. -/
  docoptParse : String → List String → Option Args
  /-- Package constant `Version`. -/
  Version : String
  /-- Package constant `Compile`. -/
  Compile : String
  /-- Result of `runtime.NumCPU()`. -/
  NumCPU : Int
  /-- Result of `time.Now()`, nanoseconds since the epoch. -/
  now : Int
  /-- Function `time.ParseDuration`; `none`: `err != nil`. -/
  ParseDuration : String → Option Int
  /-- Function `time.Parse(layout, value)`; `none`: `err != nil`. -/
  timeParse : String → String → Option Int
  /-- Function `strings.ToLower`. -/
  ToLower : String → String
  /-- Function `bytesize.Parse`; `none`: `err != nil`. -/
  bytesizeParse : String → Option Int

/-- `time.Since(t)`, that is `time.Now().Sub(t)`. -/
def Since (env : Env) (t : Int) : Int :=
  Sub env.now t

/-- Modelled from the spec: the constant `bytesize.GB` of the codis `bytesize`
package, which is not among the sources; the spec gives the default spill
capacity `bytesize.GB * 2` as a fixed 2 GiB. -/
def bytesizeGB : Int := 1073741824

/-! ## Package-level state -/

/-- The map `dbMap` (`map[uint64]uint64`) as a list of bindings with at most
one binding per key. -/
abbrev GoMap := List (Nat × Nat)

/-- The lookup `v, ok := m[k]`. -/
def GoMap.get? (m : GoMap) (k : Nat) : Option Nat :=
  List.lookup k m

/-- The test `_, ok := m[k]`. -/
def GoMap.contains (m : GoMap) (k : Nat) : Bool :=
  (m.get? k).isSome

/-- The assignment `m[k] = v`: the binding of `k`, if any, is replaced. -/
def GoMap.insert (m : GoMap) (k v : Nat) : GoMap :=
  (k, v) :: m.filter (fun p => p.1 != k)

/-- The assignments `m[p.1] = p.2` for the pairs `p` of `ps`, in list order. -/
def GoMap.insertAll (m : GoMap) (ps : List (Nat × Nat)) : GoMap :=
  ps.foldl (fun t p => GoMap.insert t p.1 p.2) m

/-- The function literals the source stores in `acceptDB`. -/
inductive AcceptFn
  /-- Lines 35-37: `return true`. -/
  | all
  /-- Lines 127-129: `return db == uint64(n)`, with the captured value. -/
  | equals (n : Nat)
  /-- Lines 152-157: `_, ok := dbMap[db]`, read from the package variable. -/
  | inDbMap
  deriving DecidableEq, Repr

/-- The mutable state the call reads and writes: the scheduler setting and
the two package variables; `acceptWrites` counts the assignments to
`acceptDB`. -/
structure World where
  gomaxprocs : Int
  acceptDB : AcceptFn
  dbMap : GoMap
  acceptWrites : Nat
  deriving DecidableEq, Repr

/-- The call `acceptDB(db)` in state `w`. -/
def World.accepts (w : World) (db : Nat) : Bool :=
  match w.acceptDB with
  | .all => true
  | .equals n => db == n
  | .inDbMap => w.dbMap.contains db

/-- The assignment `acceptDB = f`. -/
def World.setAcceptDB (w : World) (f : AcceptFn) : World :=
  { w with acceptDB := f, acceptWrites := w.acceptWrites + 1 }

/-- The state at program start: `acceptDB` accepts everything, `dbMap` is empty. -/
def World.initial (procs : Int) : World :=
  { gomaxprocs := procs, acceptDB := .all, dbMap := [], acceptWrites := 0 }

/-- `runtime.GOMAXPROCS(n)`: returns the previous setting and changes it when
`n >= 1`. -/
def GOMAXPROCS (n : Int) (w : World) : Int × World :=
  (w.gomaxprocs, if n < 1 then w else { w with gomaxprocs := n })

/-! ## Flags and outcomes -/

/-- The anonymous struct of the field `TmpFile`. -/
structure TmpFileT where
  Path : String
  Size : Int
  deriving DecidableEq, Repr

/-- The struct `Flags`. -/
structure Flags where
  Source : String
  Target : String
  Parallel : Int
  AofPath : String
  TmpFile : TmpFileT
  ExpireOffset : Int
  deriving DecidableEq, Repr

/-- The zero value `var flags Flags`. -/
def Flags.zero : Flags :=
  { Source := "", Target := "", Parallel := 0, AofPath := "",
    TmpFile := { Path := "", Size := 0 }, ExpireOffset := 0 }

/-- What a diagnostic of `log.Panicf` / `log.PanicErrorf` is about. -/
inductive Fatal
  /-- The message "parse arguments failed". -/
  | arguments
  /-- The message "parse NAME=RAW failed". -/
  | option (name : String) (raw : String)
  deriving DecidableEq, Repr

/-- How a call of `parseFlagsFromArgs` ends. -/
inductive Outcome
  /-- The statement `return &flags`, with the state left behind. -/
  | returned (flags : Flags) (w : World)
  /-- The call `os.Exit(code)` after printing the lines `stdout`. -/
  | exited (code : Int) (stdout : List String)
  /-- A diagnostic of the logger followed by a non-zero exit. -/
  | fatal (e : Fatal)
  /-- A run-time panic of the type assertion `d["--version"].(bool)`. -/
  | goPanic
  deriving DecidableEq, Repr

/-! ## The steps of `parseFlagsFromArgs` -/

/-- Lines 57-68: the `--ncpu` override and the scheduler setting. -/
def resolveNcpu (env : Env) (d : Args) (w : World) : Except Fatal World :=
  match (d "--ncpu").nonEmptyString with
  | some s =>
    match Atoi s with
    | none => .error (.option "--ncpu" s)
    | some n =>
      if n ≤ 0 ∨ 1024 < n then .error (.option "--ncpu" s)
      else .ok (GOMAXPROCS n w).2
  | none => .ok (GOMAXPROCS env.NumCPU w).2

/-- Lines 72-79: the parallelism chosen from the processor count. -/
def parallelOf (ncpu : Int) : Int :=
  if ncpu ≤ 1 then 8
  else if ncpu ≤ 8 then wrapInt64 (4 * ncpu)
  else wrapInt64 (2 * ncpu)

/-- Lines 80-84 and 85-89: the loop over the aliases `keys`, assigning to the
field (current value `cur`) at every alias that holds a non-empty string. -/
def assignAliases (d : Args) (keys : List String) (cur : String) : String :=
  keys.foldl (fun acc key =>
    match (d key).nonEmptyString with
    | some s => s
    | none => acc) cur

/-- Lines 91-93: the field `AofPath`. -/
def resolveAof (d : Args) (cur : String) : String :=
  match (d "--aof").nonEmptyString with
  | some s => s
  | none => cur

/-- Lines 95-116: the field `ExpireOffset`.  The guard makes `s` non-empty, so
the branch for an empty character list is never taken. -/
def resolveExpireOffset (env : Env) (d : Args) : Except Fatal Int :=
  match (d "--unixtime-in-milliseconds").nonEmptyString with
  | none => .ok 0
  | some s =>
    match s.data with
    | [] => .ok 0
    | c :: rest =>
      if c = '-' ∨ c = '+' then
        match env.ParseDuration (env.ToLower s) with
        | none => .error (.option "--unixtime-in-milliseconds" s)
        | some dur => .ok dur
      else if c = '@' then
        match ParseInt (String.mk rest) with
        | none => .error (.option "--unixtime-in-milliseconds" s)
        | some n => .ok (Since env (Unix (n.tdiv 1000) (n.tmod 1000)))
      else
        match env.timeParse "2006-01-02 15:04:05" s with
        | none => .error (.option "--unixtime-in-milliseconds" s)
        | some t => .ok (Since env t)

/-- Lines 118-130: the option `--db`. -/
def resolveDB (d : Args) (w : World) : Except Fatal World :=
  match (d "--db").nonEmptyString with
  | none => .ok w
  | some s =>
    if s = "*" then .ok w
    else
      match Atoi s with
      | none => .error (.option "--db" s)
      | some n =>
        if n < 0 then .error (.option "--db" s)
        else .ok (w.setAcceptDB (.equals (uint64 n)))

/-- Lines 137-148: one entry `m` of the `--dbmap` list `raw`. -/
def dbmapEntry (raw : String) (m : String) (tbl : GoMap) : Except Fatal GoMap :=
  match Split m ':' with
  | [a, b] =>
    match Atoi a with
    | none => .error (.option "--dbmap" raw)
    | some sdb =>
      if sdb < 0 then .error (.option "--dbmap" raw)
      else
        match Atoi b with
        | none => .error (.option "--dbmap" raw)
        | some tdb =>
          if tdb < 0 then .error (.option "--dbmap" raw)
          else .ok (tbl.insert (uint64 sdb) (uint64 tdb))
  | _ => .ok tbl

/-- Lines 136-149: the loop over the entries. -/
def dbmapLoop (raw : String) : List String → GoMap → Except Fatal GoMap
  | [], tbl => .ok tbl
  | m :: ms, tbl =>
    match dbmapEntry raw m tbl with
    | .error e => .error e
    | .ok tbl1 => dbmapLoop raw ms tbl1

/-- Lines 132-158: the option `--dbmap`. -/
def resolveDBMap (d : Args) (w : World) : Except Fatal World :=
  match (d "--dbmap").nonEmptyString with
  | none => .ok w
  | some s =>
    let tmp := Split s ','
    match (if 0 < tmp.length then dbmapLoop s tmp w.dbMap else .ok w.dbMap) with
    | .error e => .error e
    | .ok tbl => .ok ({ w with dbMap := tbl }.setAcceptDB .inDbMap)

/-- Lines 161-175: the field `TmpFile`. -/
def resolveTmpFile (env : Env) (d : Args) (cur : TmpFileT) : Except Fatal TmpFileT :=
  let path := match (d "--tmpfile").asString with
    | some s => s
    | none => cur.Path
  match (d "--tmpfile-size").nonEmptyString with
  | some s =>
    match env.bytesizeParse s with
    | none => .error (.option "--tmpfile-size" s)
    | some n =>
      if n ≤ 0 then .error (.option "--tmpfile-size" s)
      else .ok { Path := path, Size := n }
  | none =>
    if path ≠ "" then .ok { Path := path, Size := bytesizeGB * 2 }
    else .ok { Path := path, Size := cur.Size }

/-- The function `parseFlagsFromArgs(usage, args)` run in state `w`. -/
def parseFlagsFromArgs (env : Env) (usage : String) (args : List String) (w : World) :
    Outcome :=
  match env.docoptParse usage args with
  | none => .fatal .arguments
  | some d =>
    match d "--version" with
    | .bool true =>
      .exited 0 ["version: " ++ env.Version, "compile: " ++ env.Compile]
    | .bool false =>
      match resolveNcpu env d w with
      | .error e => .fatal e
      | .ok w1 =>
        let ncpu := (GOMAXPROCS 0 w1).1
        let flags1 : Flags :=
          { Flags.zero with
            Parallel := parallelOf ncpu
            Source := assignAliases d ["INPUT", "--input", "MASTER", "--master"] Flags.zero.Source
            Target := assignAliases d ["--output", "--target"] Flags.zero.Target
            AofPath := resolveAof d Flags.zero.AofPath }
        match resolveExpireOffset env d with
        | .error e => .fatal e
        | .ok off =>
          match resolveDB d w1 with
          | .error e => .fatal e
          | .ok w2 =>
            match resolveDBMap d w2 with
            | .error e => .fatal e
            | .ok w3 =>
              match resolveTmpFile env d flags1.TmpFile with
              | .error e => .fatal e
              | .ok tmp => .returned { flags1 with ExpireOffset := off, TmpFile := tmp } w3
    | _ => .goPanic

/-! ## Worked inputs -/

/-- An option map given by its bindings; every other key is absent. -/
def argsOf (l : List (String × Value)) : Args :=
  fun k => (List.lookup k l).getD .nil

/-- An environment for worked inputs: docopt yields `d`, four processors, the
clock stands at 1600000000 s after the epoch, the byte-size parser reads
"1gb" and "0", the duration and date parsers reject everything. -/
def exampleEnv (d : Args) : Env :=
  { docoptParse := fun _ _ => some d
    Version := "2.0"
    Compile := "go"
    NumCPU := 4
    now := 1600000000000000000
    ParseDuration := fun _ => none
    timeParse := fun _ _ => none
    ToLower := fun s => s
    bytesizeParse := fun s =>
      if s = "1gb" then some 1073741824 else if s = "0" then some 0 else none }

/-! ## Reference definitions used in the statements -/

/-- The value of the first alias of `keys`, in list order, that holds a
non-empty string; `none` when no alias does. -/
def firstNonEmpty? (d : Args) : List String → Option String
  | [] => none
  | k :: ks =>
    match (d k).nonEmptyString with
    | some s => some s
    | none => firstNonEmpty? d ks

/-- Option map of the worked input for the parallelism: `--ncpu=4`. -/
def ncpuArgs : Args :=
  argsOf [("--version", .bool false), ("--ncpu", .str "4")]

/-- Option map with `--unixtime-in-milliseconds=@1500`. -/
def millisArgs : Args :=
  argsOf [("--version", .bool false), ("--unixtime-in-milliseconds", .str "@1500")]

/-- Option map in which two source aliases and two target aliases are set. -/
def aliasArgs : Args :=
  argsOf [("--version", .bool false), ("INPUT", .str "a"), ("--master", .str "b"),
    ("--output", .str "x"), ("--target", .str "y")]

/-- The entry `m` read as a pair: it splits on `:` into exactly two fields and
both parse as non-negative integers. -/
def wellFormedPair (m : String) : Option (Nat × Nat) :=
  match Split m ':' with
  | [a, b] =>
    match Atoi a, Atoi b with
    | some x, some y => if 0 ≤ x ∧ 0 ≤ y then some (x.toNat, y.toNat) else none
    | _, _ => none
  | _ => none

/-- The entry `m` splits on `:` into exactly two fields. -/
def hasTwoFields (m : String) : Bool :=
  (Split m ':').length == 2

/-- The pairs of the well-formed entries of a `--dbmap` value, in list order. -/
def wellFormedPairs (s : String) : List (Nat × Nat) :=
  (Split s ',').filterMap wellFormedPair

/-- Option map with `--dbmap=0:1,garbage,2:3`. -/
def dbmapArgs : Args :=
  argsOf [("--version", .bool false), ("--dbmap", .str "0:1,garbage,2:3")]

/-- Option map with an empty `--dbmap` value. -/
def dbmapEmptyArgs : Args :=
  argsOf [("--version", .bool false), ("--dbmap", .str "")]

/-- The precedence rule of the database policy: membership in `table` when
`--dbmap` is present and non-empty; otherwise equality with `N` when `--db`
is present with an integer value `N` other than `*`; otherwise every database. -/
def precedenceRule (d : Args) (table : GoMap) (db : Nat) : Bool :=
  match (d "--dbmap").nonEmptyString with
  | some _ => table.contains db
  | none =>
    match (d "--db").asString with
    | some s =>
      if s = "*" then true
      else
        match Atoi s with
        | some n => decide ((db : Int) = n)
        | none => true
    | none => true

/-- Option map with `--db=5 --dbmap=1:1`. -/
def dbAndDbmapArgs : Args :=
  argsOf [("--version", .bool false), ("--db", .str "5"), ("--dbmap", .str "1:1")]

/-- Option map with an empty `--db` value. -/
def dbEmptyArgs : Args :=
  argsOf [("--version", .bool false), ("--db", .str "")]

/-- Option map with `--db=3`. -/
def dbThreeArgs : Args :=
  argsOf [("--version", .bool false), ("--db", .str "3")]

/-- Option map with `--ncpu=1024`. -/
def ncpuMaxArgs : Args :=
  argsOf [("--version", .bool false), ("--ncpu", .str "1024")]

/-- Option map with `--tmpfile-size=1gb` and no `--tmpfile`. -/
def sizeOnlyArgs : Args :=
  argsOf [("--version", .bool false), ("--tmpfile-size", .str "1gb")]

/-- Option map with only `--version` set (to false). -/
def plainArgs : Args :=
  argsOf [("--version", .bool false)]

/-- Option map with `--tmpfile=/tmp/x` and no `--tmpfile-size`. -/
def pathOnlyArgs : Args :=
  argsOf [("--version", .bool false), ("--tmpfile", .str "/tmp/x")]

/-- Option map with `--tmpfile=/tmp/x --tmpfile-size=1gb`. -/
def pathAndSizeArgs : Args :=
  argsOf [("--version", .bool false), ("--tmpfile", .str "/tmp/x"),
    ("--tmpfile-size", .str "1gb")]

/-- Option map with `--version` set together with `--ncpu=0 --db=-1`. -/
def versionArgs : Args :=
  argsOf [("--version", .bool true), ("--ncpu", .str "0"), ("--db", .str "-1")]

/-- The options of `versionArgs` without `--version`. -/
def noVersionArgs : Args :=
  argsOf [("--version", .bool false), ("--ncpu", .str "0"), ("--db", .str "-1")]

/-- Number of assignments to `acceptDB` made for `--db`: one for a non-empty
value other than `*`. -/
def writesForDb (d : Args) : Nat :=
  match (d "--db").nonEmptyString with
  | some s => if s = "*" then 0 else 1
  | none => 0

/-- Number of assignments to `acceptDB` made for `--dbmap`: one for a
non-empty value. -/
def writesForDbmap (d : Args) : Nat :=
  match (d "--dbmap").nonEmptyString with
  | some _ => 1
  | none => 0

/-- Option map with `--db=5 --dbmap=garbage`. -/
def dbAndGarbageArgs : Args :=
  argsOf [("--version", .bool false), ("--db", .str "5"), ("--dbmap", .str "garbage")]

/-- Option map with `--dbmap=,`. -/
def dbmapCommaArgs : Args :=
  argsOf [("--version", .bool false), ("--dbmap", .str ",")]

/-- Option map with `--ncpu=8`. -/
def ncpuEightArgs : Args :=
  argsOf [("--version", .bool false), ("--ncpu", .str "8")]

/-- Option map with `--ncpu=9`. -/
def ncpuNineArgs : Args :=
  argsOf [("--version", .bool false), ("--ncpu", .str "9")]

/-- The field `a` does not parse as an integer or parses as a negative one. -/
def badField (a : String) : Bool :=
  match Atoi a with
  | none => true
  | some n => decide (n < 0)

/-- The entry `m` splits on `:` into exactly two fields of which at least one
does not parse as an integer or parses as a negative integer. -/
def malformedPair (m : String) : Bool :=
  match Split m ':' with
  | [a, b] => badField a || badField b
  | _ => false

/-- Option map with `--dbmap=0:1,2:x`. -/
def dbmapBadArgs : Args :=
  argsOf [("--version", .bool false), ("--dbmap", .str "0:1,2:x")]

/-- Target of the last pair of `ps`, in list order, whose source is `k`. -/
def lastTarget (ps : List (Nat × Nat)) (k : Nat) : Option Nat :=
  List.lookup k ps.reverse

/-- The source ids bound in a table. -/
def GoMap.keys (m : GoMap) : List Nat :=
  m.map Prod.fst

/-- Option map with `--dbmap=0:1,0:2`. -/
def dbmapRepeatArgs : Args :=
  argsOf [("--version", .bool false), ("--dbmap", .str "0:1,0:2")]

/-- The parser that the first character of the non-empty value `s` selects
rejects its input: the duration parser on the lower-cased `s` for `+` or `-`,
the base-10 64-bit integer parser on the remainder for `@`, the date-time
parser with the layout "2006-01-02 15:04:05" on `s` for anything else. -/
def chosenParserFails (env : Env) (s : String) : Bool :=
  match s.data with
  | [] => false
  | c :: rest =>
    if c = '+' ∨ c = '-' then (env.ParseDuration (env.ToLower s)).isNone
    else if c = '@' then (ParseInt (String.mk rest)).isNone
    else (env.timeParse "2006-01-02 15:04:05" s).isNone

/-- An environment for worked inputs on durations: as `exampleEnv`, with the
clock at `now`, a `ToLower` that lowers the ASCII letters, and a duration
parser that reads "+1h", "-1h" and "1h" as Go does (one hour is
3600000000000 ns) and rejects every other string. -/
def durationEnv (d : Args) (now : Int) : Env :=
  { exampleEnv d with
    now := now
    ToLower := fun s => String.mk (s.data.map Char.toLower)
    ParseDuration := fun s =>
      if s = "+1h" then some 3600000000000
      else if s = "-1h" then some (-3600000000000)
      else if s = "1h" then some 3600000000000
      else none }

/-- Option map with `--unixtime-in-milliseconds=+1h`. -/
def plusHourArgs : Args :=
  argsOf [("--version", .bool false), ("--unixtime-in-milliseconds", .str "+1h")]

/-- Option map with `--unixtime-in-milliseconds=-1h`. -/
def minusHourArgs : Args :=
  argsOf [("--version", .bool false), ("--unixtime-in-milliseconds", .str "-1h")]

/-- Option map with `--unixtime-in-milliseconds=+1H`. -/
def plusUpperHourArgs : Args :=
  argsOf [("--version", .bool false), ("--unixtime-in-milliseconds", .str "+1H")]

/-- Option map with `--unixtime-in-milliseconds=1h`. -/
def unsignedHourArgs : Args :=
  argsOf [("--version", .bool false), ("--unixtime-in-milliseconds", .str "1h")]

/-! ## Shared lemmas -/

theorem parse_unfold {env : Env} {usage : String} {args : List String} {w : World} {d : Args}
    (hd : env.docoptParse usage args = some d) (hv : d "--version" = .bool false) :
    parseFlagsFromArgs env usage args w =
      match resolveNcpu env d w with
      | .error e => .fatal e
      | .ok w1 =>
        match resolveExpireOffset env d with
        | .error e => .fatal e
        | .ok off =>
          match resolveDB d w1 with
          | .error e => .fatal e
          | .ok w2 =>
            match resolveDBMap d w2 with
            | .error e => .fatal e
            | .ok w3 =>
              match resolveTmpFile env d Flags.zero.TmpFile with
              | .error e => .fatal e
              | .ok tmp =>
                .returned
                  { Source := assignAliases d ["INPUT", "--input", "MASTER", "--master"] ""
                    Target := assignAliases d ["--output", "--target"] ""
                    Parallel := parallelOf w1.gomaxprocs
                    AofPath := resolveAof d ""
                    TmpFile := tmp
                    ExpireOffset := off } w3 := by
  simp only [parseFlagsFromArgs, hd, hv, GOMAXPROCS, Flags.zero]

theorem parse_returned_inv {env : Env} {usage : String} {args : List String} {w : World}
    {flags : Flags} {w3 : World}
    (h : parseFlagsFromArgs env usage args w = .returned flags w3) :
    ∃ d w1 off w2 tmp,
      env.docoptParse usage args = some d ∧ d "--version" = .bool false ∧
      resolveNcpu env d w = .ok w1 ∧ resolveExpireOffset env d = .ok off ∧
      resolveDB d w1 = .ok w2 ∧ resolveDBMap d w2 = .ok w3 ∧
      resolveTmpFile env d Flags.zero.TmpFile = .ok tmp ∧
      flags =
        { Source := assignAliases d ["INPUT", "--input", "MASTER", "--master"] ""
          Target := assignAliases d ["--output", "--target"] ""
          Parallel := parallelOf w1.gomaxprocs
          AofPath := resolveAof d ""
          TmpFile := tmp
          ExpireOffset := off } := by
  cases hd : env.docoptParse usage args with
  | none => simp [parseFlagsFromArgs, hd] at h
  | some d =>
    cases hv : d "--version" with
    | nil => simp [parseFlagsFromArgs, hd, hv] at h
    | str s => simp [parseFlagsFromArgs, hd, hv] at h
    | other => simp [parseFlagsFromArgs, hd, hv] at h
    | bool b =>
      cases b with
      | true => simp [parseFlagsFromArgs, hd, hv] at h
      | false =>
        rw [parse_unfold hd hv] at h
        cases h1 : resolveNcpu env d w with
        | error e => simp [h1] at h
        | ok w1 =>
          cases h2 : resolveExpireOffset env d with
          | error e => simp [h1, h2] at h
          | ok off =>
            cases h3 : resolveDB d w1 with
            | error e => simp [h1, h2, h3] at h
            | ok w2 =>
              cases h4 : resolveDBMap d w2 with
              | error e => simp [h1, h2, h3, h4] at h
              | ok w3a =>
                cases h5 : resolveTmpFile env d Flags.zero.TmpFile with
                | error e => simp [h1, h2, h3, h4, h5] at h
                | ok tmp =>
                  simp only [h1, h2, h3, h4, h5, Outcome.returned.injEq] at h
                  obtain ⟨hf, hw⟩ := h
                  subst hw
                  exact ⟨d, w1, off, w2, tmp, rfl, hv, h1, h2, h3, h4, h5, hf.symm⟩

theorem resolveNcpu_ok_cases {env : Env} {d : Args} {w w1 : World}
    (h : resolveNcpu env d w = .ok w1) :
    ((d "--ncpu").nonEmptyString = none ∧ w1 = (GOMAXPROCS env.NumCPU w).2) ∨
    ∃ s n, (d "--ncpu").nonEmptyString = some s ∧ Atoi s = some n ∧ 1 ≤ n ∧ n ≤ 1024 ∧
      w1 = { w with gomaxprocs := n } := by
  unfold resolveNcpu at h
  cases hs : (d "--ncpu").nonEmptyString with
  | none =>
    simp only [hs, Except.ok.injEq] at h
    exact Or.inl ⟨rfl, h.symm⟩
  | some s =>
    cases hn : Atoi s with
    | none => simp [hs, hn] at h
    | some n =>
      simp only [hs, hn] at h
      by_cases hr : n ≤ 0 ∨ 1024 < n
      · simp [hr] at h
      · simp only [hr, if_false, Except.ok.injEq] at h
        have h1 : 1 ≤ n := by omega
        have h2 : n ≤ 1024 := by omega
        have h3 : ¬ n < 1 := by omega
        refine Or.inr ⟨s, n, rfl, hn, h1, h2, ?_⟩
        simp only [GOMAXPROCS, h3, if_false] at h
        exact h.symm

theorem resolveNcpu_dbMap {env : Env} {d : Args} {w w1 : World}
    (h : resolveNcpu env d w = .ok w1) :
    w1.dbMap = w.dbMap ∧ w1.acceptDB = w.acceptDB ∧ w1.acceptWrites = w.acceptWrites := by
  rcases resolveNcpu_ok_cases h with ⟨_, h1⟩ | ⟨s, n, _, _, _, _, h1⟩
  · subst h1
    unfold GOMAXPROCS
    split <;> simp
  · subst h1
    simp

theorem resolveDB_ok_cases {d : Args} {w w2 : World} (h : resolveDB d w = .ok w2) :
    (((d "--db").nonEmptyString = none ∨ (d "--db").nonEmptyString = some "*") ∧ w2 = w) ∨
    ∃ s n, (d "--db").nonEmptyString = some s ∧ s ≠ "*" ∧ Atoi s = some n ∧ 0 ≤ n ∧
      w2 = w.setAcceptDB (.equals (uint64 n)) := by
  unfold resolveDB at h
  cases hs : (d "--db").nonEmptyString with
  | none =>
    simp only [hs, Except.ok.injEq] at h
    exact Or.inl ⟨Or.inl rfl, h.symm⟩
  | some s =>
    simp only [hs] at h
    by_cases hstar : s = "*"
    · simp only [hstar, if_true, Except.ok.injEq] at h
      exact Or.inl ⟨Or.inr (by rw [hstar]), h.symm⟩
    · simp only [hstar, if_false] at h
      cases hn : Atoi s with
      | none => simp [hn] at h
      | some n =>
        simp only [hn] at h
        by_cases hneg : n < 0
        · simp [hneg] at h
        · simp only [hneg, if_false, Except.ok.injEq] at h
          exact Or.inr ⟨s, n, rfl, hstar, hn, by omega, h.symm⟩

theorem resolveDB_gomaxprocs {d : Args} {w w2 : World} (h : resolveDB d w = .ok w2) :
    w2.gomaxprocs = w.gomaxprocs ∧ w2.dbMap = w.dbMap := by
  rcases resolveDB_ok_cases h with ⟨_, h1⟩ | ⟨s, n, _, _, _, _, h1⟩
  · subst h1
    exact ⟨rfl, rfl⟩
  · subst h1
    exact ⟨rfl, rfl⟩

theorem dbmapLoop_nil_guard (raw : String) (tmp : List String) (tbl : GoMap) :
    (if 0 < tmp.length then dbmapLoop raw tmp tbl else .ok tbl) = dbmapLoop raw tmp tbl := by
  cases tmp with
  | nil => simp [dbmapLoop]
  | cons m ms => simp

theorem resolveDBMap_ok_cases {d : Args} {w w3 : World} (h : resolveDBMap d w = .ok w3) :
    ((d "--dbmap").nonEmptyString = none ∧ w3 = w) ∨
    ∃ s tbl, (d "--dbmap").nonEmptyString = some s ∧
      dbmapLoop s (Split s ',') w.dbMap = .ok tbl ∧
      w3 = World.setAcceptDB { w with dbMap := tbl } .inDbMap := by
  unfold resolveDBMap at h
  cases hs : (d "--dbmap").nonEmptyString with
  | none =>
    simp only [hs, Except.ok.injEq] at h
    exact Or.inl ⟨rfl, h.symm⟩
  | some s =>
    simp only [hs, dbmapLoop_nil_guard] at h
    cases hl : dbmapLoop s (Split s ',') w.dbMap with
    | error e => simp [hl] at h
    | ok tbl =>
      simp only [hl, Except.ok.injEq] at h
      exact Or.inr ⟨s, tbl, rfl, hl, h.symm⟩

theorem resolveDBMap_gomaxprocs {d : Args} {w w3 : World} (h : resolveDBMap d w = .ok w3) :
    w3.gomaxprocs = w.gomaxprocs := by
  rcases resolveDBMap_ok_cases h with ⟨_, h1⟩ | ⟨s, tbl, _, _, h1⟩
  · subst h1
    rfl
  · subst h1
    rfl

theorem wrapInt64_of_range {x : Int} (h1 : -(2 ^ 63) ≤ x) (h2 : x < 2 ^ 63) :
    wrapInt64 x = x := by
  unfold wrapInt64
  norm_num at h1 h2 ⊢
  omega

/-! ## C1: the parallelism heuristic -/

/-- C1: when `parseFlagsFromArgs` returns and the processor count in force
(the scheduler setting left by the `--ncpu` step, which `GOMAXPROCS(0)` reads)
is `ncpu` with `1 <= ncpu <= 1024`, then `Parallel` is 8 for `ncpu = 1`,
`4 * ncpu` for `2 <= ncpu <= 8` and `2 * ncpu` for `8 < ncpu`. -/
theorem parallel_by_ncpu (env : Env) (usage : String) (args : List String) (w : World)
    (flags : Flags) (w3 : World) (ncpu : Int)
    (h : parseFlagsFromArgs env usage args w = .returned flags w3)
    (hn : w3.gomaxprocs = ncpu) (hlo : 1 ≤ ncpu) (hhi : ncpu ≤ 1024) :
    (ncpu = 1 → flags.Parallel = 8) ∧
    (2 ≤ ncpu → ncpu ≤ 8 → flags.Parallel = 4 * ncpu) ∧
    (8 < ncpu → flags.Parallel = 2 * ncpu) := by
  obtain ⟨d, w1, off, w2, tmp, _, _, _, _, h3, h4, _, hf⟩ := parse_returned_inv h
  have hg : w1.gomaxprocs = ncpu := by
    rw [← hn, resolveDBMap_gomaxprocs h4, (resolveDB_gomaxprocs h3).1]
  have hp : flags.Parallel = parallelOf ncpu := by
    rw [hf, hg]
  rw [hp]
  unfold parallelOf
  refine ⟨?_, ?_, ?_⟩
  · intro h1
    simp [h1]
  · intro h2 h8
    have hn1 : ¬ ncpu ≤ 1 := by omega
    simp only [hn1, h8, if_false, if_true]
    exact wrapInt64_of_range (by omega) (by omega)
  · intro h8
    have hn1 : ¬ ncpu ≤ 1 := by omega
    have hn8 : ¬ ncpu ≤ 8 := by omega
    simp only [hn1, hn8, if_false]
    exact wrapInt64_of_range (by omega) (by omega)

/-- Worked input for C1: `--ncpu=4` returns with the setting 4 and
`Parallel = 16 = 4 * 4`. -/
theorem parallel_by_ncpu_witness :
    ∃ flags w3,
      parseFlagsFromArgs (exampleEnv ncpuArgs) "" [] (World.initial 1) =
        .returned flags w3 ∧
      w3.gomaxprocs = 4 ∧ (1 : Int) ≤ 4 ∧ (4 : Int) ≤ 1024 ∧
      flags.Parallel = 16 ∧ flags.Parallel = 4 * 4 :=
  have hrun : parseFlagsFromArgs (exampleEnv ncpuArgs) "" [] (World.initial 1) =
      .returned
        { Source := "", Target := "", Parallel := 16, AofPath := "",
          TmpFile := { Path := "", Size := 0 }, ExpireOffset := 0 }
        { gomaxprocs := 4, acceptDB := .all, dbMap := [], acceptWrites := 0 } := by decide
  ⟨_, _, hrun, rfl, by decide, by decide, rfl,
   (parallel_by_ncpu (exampleEnv ncpuArgs) "" [] (World.initial 1) _ _ 4
      hrun rfl (by decide) (by decide)).2.1 (by decide) (by decide)⟩

/-! ## C2: the offset for an `@`-prefixed millisecond timestamp -/

/-- C2: for `--unixtime-in-milliseconds=@1500` the code passes the remainder
`1500 % 1000` to `time.Unix` as nanoseconds: in every environment the offset
is the time elapsed since 1 s + 500 ns after the epoch, and with the clock at
1600000000 s the call returns 1599999998999999500 ns, which is not the time
elapsed since the instant 1500 ms after the epoch (1599999998500000000 ns). -/
theorem expire_offset_at_millis_1500 :
    (∀ env : Env, resolveExpireOffset env millisArgs = .ok (Sub env.now 1000000500)) ∧
    (∃ flags w3,
      parseFlagsFromArgs (exampleEnv millisArgs) "" [] (World.initial 1) =
        .returned flags w3 ∧
      flags.ExpireOffset = 1599999998999999500 ∧
      flags.ExpireOffset = Since (exampleEnv millisArgs) (Unix 1 500) ∧
      Since (exampleEnv millisArgs) (1500 * 1000000) = 1599999998500000000 ∧
      flags.ExpireOffset ≠ Since (exampleEnv millisArgs) (1500 * 1000000)) := by
  refine ⟨fun env => ?_, ?_⟩
  · have hs : (millisArgs "--unixtime-in-milliseconds").nonEmptyString = some "@1500" := by
      decide
    have hp : ParseInt (String.mk ['1', '5', '0', '0']) = some 1500 := by decide
    have hd : ("@1500" : String).data = ['@', '1', '5', '0', '0'] := by decide
    simp only [resolveExpireOffset, hs, hd]
    simp [hp, Since, Unix, Int.tdiv, Int.tmod]
  · refine ⟨_, _, rfl, ?_, ?_, ?_, ?_⟩ <;> decide

/-! ## C3: the source and target aliases -/

theorem firstNonEmpty?_append (d : Args) (l1 l2 : List String) :
    firstNonEmpty? d (l1 ++ l2) =
      match firstNonEmpty? d l1 with
      | some s => some s
      | none => firstNonEmpty? d l2 := by
  induction l1 with
  | nil => rfl
  | cons k ks ih =>
    simp only [List.cons_append, firstNonEmpty?]
    cases (d k).nonEmptyString with
    | some s => rfl
    | none => exact ih

theorem assignAliases_eq (d : Args) (keys : List String) (cur : String) :
    assignAliases d keys cur = (firstNonEmpty? d keys.reverse).getD cur := by
  induction keys generalizing cur with
  | nil => rfl
  | cons k ks ih =>
    have hstep : assignAliases d (k :: ks) cur =
        assignAliases d ks (match (d k).nonEmptyString with
          | some s => s
          | none => cur) := rfl
    rw [hstep, ih, List.reverse_cons, firstNonEmpty?_append]
    cases h1 : firstNonEmpty? d ks.reverse with
    | some s => rfl
    | none =>
      simp only [firstNonEmpty?]
      cases (d k).nonEmptyString with
      | some s => rfl
      | none => rfl

/-- C3, as stated, fails: with INPUT = "a", `--master` = "b", `--output` = "x"
and `--target` = "y" the first non-empty aliases hold "a" and "x", but the
call returns `Source = "b"` and `Target = "y"`. -/
theorem source_target_first_alias_counterexample :
    parseFlagsFromArgs (exampleEnv aliasArgs) "" [] (World.initial 1) =
      .returned
        { Source := "b", Target := "y", Parallel := 16, AofPath := "",
          TmpFile := { Path := "", Size := 0 }, ExpireOffset := 0 }
        { gomaxprocs := 4, acceptDB := .all, dbMap := [], acceptWrites := 0 } ∧
    firstNonEmpty? aliasArgs ["INPUT", "--input", "MASTER", "--master"] = some "a" ∧
    firstNonEmpty? aliasArgs ["--output", "--target"] = some "x" := by
  decide

/-- C3, amended: whenever `parseFlagsFromArgs` returns, `Source` is the value
of the last alias in the order INPUT, `--input`, MASTER, `--master` that holds
a non-empty string (the first one in the reversed order), `Target` is the
value of the last alias in the order `--output`, `--target` that holds a
non-empty string, and a field is empty when none of its aliases does. -/
theorem source_target_last_alias (env : Env) (usage : String) (args : List String)
    (w : World) (d : Args) (flags : Flags) (w3 : World)
    (hd : env.docoptParse usage args = some d)
    (h : parseFlagsFromArgs env usage args w = .returned flags w3) :
    flags.Source = (firstNonEmpty? d ["--master", "MASTER", "--input", "INPUT"]).getD "" ∧
    flags.Target = (firstNonEmpty? d ["--target", "--output"]).getD "" := by
  obtain ⟨d1, w1, off, w2, tmp, hd1, _, _, _, _, _, _, hf⟩ := parse_returned_inv h
  have hdd : d1 = d := by
    rw [hd] at hd1
    exact (Option.some.inj hd1).symm
  subst hdd
  subst hf
  exact ⟨assignAliases_eq d1 _ "", assignAliases_eq d1 _ ""⟩

/-- Worked input for C3: INPUT = "a" and `--master` = "b" give `Source = "b"`;
`--output` = "x" and `--target` = "y" give `Target = "y"`. -/
theorem source_target_last_alias_witness :
    (exampleEnv aliasArgs).docoptParse "" [] = some aliasArgs ∧
    (∃ flags w3,
      parseFlagsFromArgs (exampleEnv aliasArgs) "" [] (World.initial 1) =
        .returned flags w3 ∧
      flags.Source = "b" ∧ flags.Target = "y" ∧
      flags.Source =
        (firstNonEmpty? aliasArgs ["--master", "MASTER", "--input", "INPUT"]).getD "" ∧
      flags.Target = (firstNonEmpty? aliasArgs ["--target", "--output"]).getD "") :=
  ⟨rfl, _, _, rfl, by decide, by decide,
    source_target_last_alias (exampleEnv aliasArgs) "" [] (World.initial 1) aliasArgs _ _
      rfl rfl⟩

/-! ## Lemmas on `dbMap` and on the `--dbmap` loop -/

theorem lookup_filter_ne (m : GoMap) (k q : Nat) (hq : q ≠ k) :
    List.lookup q (m.filter (fun p => p.1 != k)) = List.lookup q m := by
  induction m with
  | nil => rfl
  | cons p ps ih =>
    obtain ⟨a, b⟩ := p
    by_cases ha : a = k
    · subst ha
      have hqa : (q == a) = false := by
        simp only [beq_eq_false_iff_ne, ne_eq]
        exact hq
      simp [List.filter_cons, List.lookup_cons, hqa, ih]
    · by_cases hqa : q = a
      · simp [List.filter_cons, ha, List.lookup_cons, hqa]
      · have hqa2 : (q == a) = false := by
          simp only [beq_eq_false_iff_ne, ne_eq]
          exact hqa
        simp [List.filter_cons, ha, List.lookup_cons, hqa2, ih]

theorem get?_insert (m : GoMap) (k v q : Nat) :
    (m.insert k v).get? q = if q = k then some v else m.get? q := by
  unfold GoMap.insert GoMap.get?
  by_cases hq : q = k
  · simp [List.lookup_cons, hq]
  · have hqk : (q == k) = false := by
      simp only [beq_eq_false_iff_ne, ne_eq]
      exact hq
    simp only [List.lookup_cons, hqk, hq, if_false]
    exact lookup_filter_ne m k q hq

theorem get?_mem (m : GoMap) (k v : Nat) (h : m.get? k = some v) : (k, v) ∈ m := by
  unfold GoMap.get? at h
  induction m with
  | nil => simp at h
  | cons p ps ih =>
    obtain ⟨a, b⟩ := p
    by_cases hka : k = a
    · subst hka
      simp [List.lookup_cons] at h
      simp [h]
    · have hka2 : (k == a) = false := by
        simp only [beq_eq_false_iff_ne, ne_eq]
        exact hka
      simp only [List.lookup_cons, hka2] at h
      exact List.mem_cons_of_mem _ (ih h)

theorem insertAll_cons (t : GoMap) (p : Nat × Nat) (ps : List (Nat × Nat)) :
    GoMap.insertAll t (p :: ps) = GoMap.insertAll (t.insert p.1 p.2) ps :=
  rfl

theorem foldl_insert_get?_some (ps : List (Nat × Nat)) (t : GoMap) (k v : Nat)
    (h : (GoMap.insertAll t ps).get? k = some v) :
    (k, v) ∈ ps ∨ t.get? k = some v := by
  induction ps generalizing t with
  | nil => exact Or.inr h
  | cons p ps ih =>
    rw [insertAll_cons] at h
    rcases ih (t.insert p.1 p.2) h with h1 | h1
    · exact Or.inl (List.mem_cons_of_mem _ h1)
    · rw [get?_insert] at h1
      by_cases hk : k = p.1
      · simp only [hk, if_true, Option.some.injEq] at h1
        left
        rw [hk, ← h1]
        exact List.mem_cons_self _ _
      · simp only [hk, if_false] at h1
        exact Or.inr h1

theorem foldl_insert_contains (ps : List (Nat × Nat)) (t : GoMap) (k : Nat) :
    (GoMap.insertAll t ps).contains k = true ↔
      (∃ v, (k, v) ∈ ps) ∨ t.contains k = true := by
  induction ps generalizing t with
  | nil => simp [GoMap.insertAll]
  | cons p ps ih =>
    rw [insertAll_cons, ih]
    unfold GoMap.contains
    rw [get?_insert]
    constructor
    · rintro (⟨v, hv⟩ | h1)
      · exact Or.inl ⟨v, List.mem_cons_of_mem _ hv⟩
      · by_cases hk : k = p.1
        · exact Or.inl ⟨p.2, by rw [hk]; exact List.mem_cons_self _ _⟩
        · simp only [hk, if_false] at h1
          exact Or.inr h1
    · rintro (⟨v, hv⟩ | h1)
      · rcases List.mem_cons.mp hv with h2 | h2
        · right
          have hk : k = p.1 := by rw [← h2]
          simp [hk]
        · exact Or.inl ⟨v, h2⟩
      · right
        by_cases hk : k = p.1
        · simp [hk]
        · simp only [hk, if_false]
          exact h1

theorem parseMagnitude_some_of_parseInt {s : String} {n : Int} (h : ParseInt s = some n) :
    -(2 ^ 63) ≤ n ∧ n < 2 ^ 63 := by
  unfold ParseInt at h
  split at h
  · simp at h
  · split at h
    · split at h
      · split at h
        · simp only [Option.some.injEq] at h
          omega
        · simp at h
      · simp at h
    · split at h
      · split at h
        · simp only [Option.some.injEq] at h
          omega
        · simp at h
      · simp at h

theorem uint64_of_nonneg {n : Int} (h0 : 0 ≤ n) (h1 : n < 2 ^ 63) : uint64 n = n.toNat := by
  unfold uint64
  congr 1
  norm_num at h1 ⊢
  omega

theorem uint64_atoi {a : String} {x : Int} (h : Atoi a = some x) (h0 : 0 ≤ x) :
    uint64 x = x.toNat :=
  uint64_of_nonneg h0 (parseMagnitude_some_of_parseInt h).2

theorem dbmapEntry_ok {raw m : String} {tbl t1 : GoMap} (h : dbmapEntry raw m tbl = .ok t1) :
    t1 = match wellFormedPair m with
      | some p => tbl.insert p.1 p.2
      | none => tbl := by
  unfold dbmapEntry at h
  unfold wellFormedPair
  rcases hs : Split m ':' with _ | ⟨a, _ | ⟨b, _ | ⟨c, r⟩⟩⟩
  · simp only [hs, Except.ok.injEq] at h
    exact h.symm
  · simp only [hs, Except.ok.injEq] at h
    exact h.symm
  · simp only [hs] at h
    cases ha : Atoi a with
    | none => simp [ha] at h
    | some x =>
      simp only [ha] at h
      by_cases hx : x < 0
      · simp [hx] at h
      · simp only [hx, if_false] at h
        cases hb : Atoi b with
        | none => simp [hb] at h
        | some y =>
          simp only [hb] at h
          by_cases hy : y < 0
          · simp [hy] at h
          · simp only [hy, if_false, Except.ok.injEq] at h
            have hx0 : 0 ≤ x := by omega
            have hy0 : 0 ≤ y := by omega
            simp only [ha, hb, hx0, hy0, and_self, if_true]
            rw [← h, uint64_atoi ha hx0, uint64_atoi hb hy0]
  · simp only [hs, Except.ok.injEq] at h
    exact h.symm

theorem dbmapEntry_error {raw m : String} {tbl : GoMap} {e : Fatal}
    (h : dbmapEntry raw m tbl = .error e) :
    e = .option "--dbmap" raw ∧ hasTwoFields m = true ∧ wellFormedPair m = none := by
  unfold dbmapEntry at h
  unfold wellFormedPair hasTwoFields
  rcases hs : Split m ':' with _ | ⟨a, _ | ⟨b, _ | ⟨c, r⟩⟩⟩
  · simp [hs] at h
  · simp [hs] at h
  · simp only [hs] at h
    cases ha : Atoi a with
    | none =>
      simp only [ha, Except.error.injEq] at h
      simp [h, ha]
    | some x =>
      simp only [ha] at h
      by_cases hx : x < 0
      · simp only [hx, if_true, Except.error.injEq] at h
        have hx0 : ¬ 0 ≤ x := by omega
        cases hb : Atoi b <;> simp [h, hx0, ha, hb]
      · simp only [hx, if_false] at h
        cases hb : Atoi b with
        | none =>
          simp only [hb, Except.error.injEq] at h
          simp [h, ha, hb]
        | some y =>
          simp only [hb] at h
          by_cases hy : y < 0
          · simp only [hy, if_true, Except.error.injEq] at h
            have hy0 : ¬ 0 ≤ y := by omega
            simp [h, hy0, ha, hb]
          · simp [hy] at h
  · simp [hs] at h

theorem dbmapLoop_ok {raw : String} {ms : List String} {tbl t : GoMap}
    (h : dbmapLoop raw ms tbl = .ok t) :
    t = GoMap.insertAll tbl (ms.filterMap wellFormedPair) := by
  induction ms generalizing tbl with
  | nil =>
    simp only [dbmapLoop, Except.ok.injEq] at h
    simp [h, GoMap.insertAll]
  | cons m ms ih =>
    unfold dbmapLoop at h
    cases he : dbmapEntry raw m tbl with
    | error e => simp [he] at h
    | ok t1 =>
      simp only [he] at h
      have h1 := dbmapEntry_ok he
      rw [ih h, h1]
      cases hw : wellFormedPair m with
      | none => simp [List.filterMap_cons, hw]
      | some p => simp [List.filterMap_cons, hw, insertAll_cons]

theorem dbmapLoop_error {raw : String} {ms : List String} {tbl : GoMap} {e : Fatal}
    (h : dbmapLoop raw ms tbl = .error e) :
    e = .option "--dbmap" raw ∧
      ∃ m ∈ ms, hasTwoFields m = true ∧ wellFormedPair m = none := by
  induction ms generalizing tbl with
  | nil => simp [dbmapLoop] at h
  | cons m ms ih =>
    unfold dbmapLoop at h
    cases he : dbmapEntry raw m tbl with
    | error e1 =>
      simp only [he, Except.error.injEq] at h
      subst h
      obtain ⟨h1, h2, h3⟩ := dbmapEntry_error he
      exact ⟨h1, m, List.mem_cons_self _ _, h2, h3⟩
    | ok t1 =>
      simp only [he] at h
      obtain ⟨h1, m1, hm1, h2, h3⟩ := ih h
      exact ⟨h1, m1, List.mem_cons_of_mem _ hm1, h2, h3⟩

/-! ## How the steps fail -/

theorem resolveNcpu_error {env : Env} {d : Args} {w : World} {e : Fatal}
    (h : resolveNcpu env d w = .error e) :
    ∃ s, (d "--ncpu").nonEmptyString = some s ∧ e = .option "--ncpu" s ∧
      (Atoi s = none ∨ ∃ n, Atoi s = some n ∧ (n < 1 ∨ 1024 < n)) := by
  unfold resolveNcpu at h
  cases hs : (d "--ncpu").nonEmptyString with
  | none => simp [hs] at h
  | some s =>
    simp only [hs] at h
    cases hn : Atoi s with
    | none =>
      simp only [hn, Except.error.injEq] at h
      exact ⟨s, rfl, h.symm, Or.inl hn⟩
    | some n =>
      simp only [hn] at h
      by_cases hr : n ≤ 0 ∨ 1024 < n
      · simp only [hr, if_true, Except.error.injEq] at h
        exact ⟨s, rfl, h.symm, Or.inr ⟨n, hn, by omega⟩⟩
      · simp [hr] at h

theorem resolveExpireOffset_error {env : Env} {d : Args} {e : Fatal}
    (h : resolveExpireOffset env d = .error e) :
    ∃ s, (d "--unixtime-in-milliseconds").nonEmptyString = some s ∧
      e = .option "--unixtime-in-milliseconds" s := by
  unfold resolveExpireOffset at h
  cases hs : (d "--unixtime-in-milliseconds").nonEmptyString with
  | none => simp [hs] at h
  | some s =>
    refine ⟨s, rfl, ?_⟩
    simp only [hs] at h
    split at h
    · simp at h
    · split at h
      · split at h
        · simp only [Except.error.injEq] at h
          exact h.symm
        · simp at h
      · split at h
        · split at h
          · simp only [Except.error.injEq] at h
            exact h.symm
          · simp at h
        · split at h
          · simp only [Except.error.injEq] at h
            exact h.symm
          · simp at h

theorem resolveDB_error {d : Args} {w : World} {e : Fatal} (h : resolveDB d w = .error e) :
    ∃ s, (d "--db").nonEmptyString = some s ∧ s ≠ "*" ∧ e = .option "--db" s ∧
      (Atoi s = none ∨ ∃ n, Atoi s = some n ∧ n < 0) := by
  unfold resolveDB at h
  cases hs : (d "--db").nonEmptyString with
  | none => simp [hs] at h
  | some s =>
    simp only [hs] at h
    by_cases hstar : s = "*"
    · simp [hstar] at h
    · simp only [hstar, if_false] at h
      cases hn : Atoi s with
      | none =>
        simp only [hn, Except.error.injEq] at h
        exact ⟨s, rfl, hstar, h.symm, Or.inl hn⟩
      | some n =>
        simp only [hn] at h
        by_cases hneg : n < 0
        · simp only [hneg, if_true, Except.error.injEq] at h
          exact ⟨s, rfl, hstar, h.symm, Or.inr ⟨n, hn, hneg⟩⟩
        · simp [hneg] at h

theorem resolveDBMap_error {d : Args} {w : World} {e : Fatal}
    (h : resolveDBMap d w = .error e) :
    ∃ s, (d "--dbmap").nonEmptyString = some s ∧ e = .option "--dbmap" s ∧
      ∃ m ∈ Split s ',', hasTwoFields m = true ∧ wellFormedPair m = none := by
  unfold resolveDBMap at h
  cases hs : (d "--dbmap").nonEmptyString with
  | none => simp [hs] at h
  | some s =>
    simp only [hs, dbmapLoop_nil_guard] at h
    cases hl : dbmapLoop s (Split s ',') w.dbMap with
    | ok tbl => simp [hl] at h
    | error e1 =>
      simp only [hl, Except.error.injEq] at h
      subst h
      obtain ⟨h1, h2⟩ := dbmapLoop_error hl
      exact ⟨s, rfl, h1, h2⟩

theorem resolveTmpFile_error {env : Env} {d : Args} {cur : TmpFileT} {e : Fatal}
    (h : resolveTmpFile env d cur = .error e) :
    ∃ s, (d "--tmpfile-size").nonEmptyString = some s ∧ e = .option "--tmpfile-size" s ∧
      (env.bytesizeParse s = none ∨ ∃ n, env.bytesizeParse s = some n ∧ n ≤ 0) := by
  unfold resolveTmpFile at h
  cases hs : (d "--tmpfile-size").nonEmptyString with
  | none =>
    simp only [hs] at h
    split at h <;> simp at h
  | some s =>
    simp only [hs] at h
    cases hn : env.bytesizeParse s with
    | none =>
      simp only [hn, Except.error.injEq] at h
      exact ⟨s, rfl, h.symm, Or.inl hn⟩
    | some n =>
      simp only [hn] at h
      by_cases hr : n ≤ 0
      · simp only [hr, if_true, Except.error.injEq] at h
        exact ⟨s, rfl, h.symm, Or.inr ⟨n, hn, hr⟩⟩
      · simp [hr] at h

/-- With the option map parsed and `--version` false, the call either returns
or ends in the fatal diagnostic of the first step that fails. -/
theorem parse_cases {env : Env} {usage : String} {args : List String} (w : World) {d : Args}
    (hd : env.docoptParse usage args = some d) (hv : d "--version" = .bool false) :
    (∃ e, parseFlagsFromArgs env usage args w = .fatal e ∧ resolveNcpu env d w = .error e) ∨
    ∃ w1, resolveNcpu env d w = .ok w1 ∧
      ((∃ e, parseFlagsFromArgs env usage args w = .fatal e ∧
          resolveExpireOffset env d = .error e) ∨
       ∃ off, resolveExpireOffset env d = .ok off ∧
        ((∃ e, parseFlagsFromArgs env usage args w = .fatal e ∧ resolveDB d w1 = .error e) ∨
         ∃ w2, resolveDB d w1 = .ok w2 ∧
          ((∃ e, parseFlagsFromArgs env usage args w = .fatal e ∧
              resolveDBMap d w2 = .error e) ∨
           ∃ w3, resolveDBMap d w2 = .ok w3 ∧
            ((∃ e, parseFlagsFromArgs env usage args w = .fatal e ∧
                resolveTmpFile env d Flags.zero.TmpFile = .error e) ∨
             ∃ flags, parseFlagsFromArgs env usage args w = .returned flags w3 ∧
               resolveTmpFile env d Flags.zero.TmpFile = .ok flags.TmpFile)))) := by
  cases h1 : resolveNcpu env d w with
  | error e => exact Or.inl ⟨e, by rw [parse_unfold hd hv]; simp only [h1], rfl⟩
  | ok w1 =>
    refine Or.inr ⟨w1, rfl, ?_⟩
    cases h2 : resolveExpireOffset env d with
    | error e => exact Or.inl ⟨e, by rw [parse_unfold hd hv]; simp only [h1, h2], rfl⟩
    | ok off =>
      refine Or.inr ⟨off, rfl, ?_⟩
      cases h3 : resolveDB d w1 with
      | error e => exact Or.inl ⟨e, by rw [parse_unfold hd hv]; simp only [h1, h2, h3], rfl⟩
      | ok w2 =>
        refine Or.inr ⟨w2, rfl, ?_⟩
        cases h4 : resolveDBMap d w2 with
        | error e =>
          exact Or.inl ⟨e, by rw [parse_unfold hd hv]; simp only [h1, h2, h3, h4], rfl⟩
        | ok w3 =>
          refine Or.inr ⟨w3, rfl, ?_⟩
          cases h5 : resolveTmpFile env d Flags.zero.TmpFile with
          | error e =>
            exact Or.inl ⟨e, by rw [parse_unfold hd hv]; simp only [h1, h2, h3, h4, h5], rfl⟩
          | ok tmp =>
            refine Or.inr
              ⟨{ Source := assignAliases d ["INPUT", "--input", "MASTER", "--master"] ""
                 Target := assignAliases d ["--output", "--target"] ""
                 Parallel := parallelOf w1.gomaxprocs
                 AofPath := resolveAof d ""
                 TmpFile := tmp
                 ExpireOffset := off }, ?_, rfl⟩
            rw [parse_unfold hd hv]
            simp only [h1, h2, h3, h4, h5]

/-- A fatal outcome is the failure of one of the five validated options. -/
theorem parse_fatal_inv {env : Env} {usage : String} {args : List String} {w : World}
    {d : Args} {e : Fatal}
    (hd : env.docoptParse usage args = some d) (hv : d "--version" = .bool false)
    (h : parseFlagsFromArgs env usage args w = .fatal e) :
    resolveNcpu env d w = .error e ∨ resolveExpireOffset env d = .error e ∨
    (∃ w1, resolveNcpu env d w = .ok w1 ∧ resolveDB d w1 = .error e) ∨
    (∃ w2, resolveDBMap d w2 = .error e) ∨
    resolveTmpFile env d Flags.zero.TmpFile = .error e := by
  rcases parse_cases w hd hv with ⟨e1, he, h1⟩ | ⟨w1, hw1, hrest⟩
  · rw [h] at he
    cases he
    exact Or.inl h1
  · rcases hrest with ⟨e1, he, h1⟩ | ⟨off, _, hrest⟩
    · rw [h] at he
      cases he
      exact Or.inr (Or.inl h1)
    · rcases hrest with ⟨e1, he, h1⟩ | ⟨w2, _, hrest⟩
      · rw [h] at he
        cases he
        exact Or.inr (Or.inr (Or.inl ⟨w1, hw1, h1⟩))
      · rcases hrest with ⟨e1, he, h1⟩ | ⟨w3, _, hrest⟩
        · rw [h] at he
          cases he
          exact Or.inr (Or.inr (Or.inr (Or.inl ⟨w2, h1⟩)))
        · rcases hrest with ⟨e1, he, h1⟩ | ⟨flags, he, _⟩
          · rw [h] at he
            cases he
            exact Or.inr (Or.inr (Or.inr (Or.inr h1)))
          · rw [h] at he
            cases he

/-- The option a fatal outcome names. -/
theorem parse_fatal_name {env : Env} {usage : String} {args : List String} {w : World}
    {d : Args} {e : Fatal}
    (hd : env.docoptParse usage args = some d) (hv : d "--version" = .bool false)
    (h : parseFlagsFromArgs env usage args w = .fatal e) :
    ∃ name raw, e = .option name raw ∧ (d name).nonEmptyString = some raw ∧
      (name = "--ncpu" ∨ name = "--unixtime-in-milliseconds" ∨ name = "--db" ∨
        name = "--dbmap" ∨ name = "--tmpfile-size") := by
  rcases parse_fatal_inv hd hv h with h1 | h1 | ⟨w1, _, h1⟩ | ⟨w2, h1⟩ | h1
  · obtain ⟨s, hs, he, _⟩ := resolveNcpu_error h1
    exact ⟨_, s, he, hs, Or.inl rfl⟩
  · obtain ⟨s, hs, he⟩ := resolveExpireOffset_error h1
    exact ⟨_, s, he, hs, Or.inr (Or.inl rfl)⟩
  · obtain ⟨s, hs, _, he, _⟩ := resolveDB_error h1
    exact ⟨_, s, he, hs, Or.inr (Or.inr (Or.inl rfl))⟩
  · obtain ⟨s, hs, he, _⟩ := resolveDBMap_error h1
    exact ⟨_, s, he, hs, Or.inr (Or.inr (Or.inr (Or.inl rfl)))⟩
  · obtain ⟨s, hs, he, _⟩ := resolveTmpFile_error h1
    exact ⟨_, s, he, hs, Or.inr (Or.inr (Or.inr (Or.inr rfl)))⟩

/-- With the option map parsed and `--version` false the call returns or is fatal. -/
theorem parse_returned_or_fatal {env : Env} {usage : String} {args : List String}
    (w : World) {d : Args}
    (hd : env.docoptParse usage args = some d) (hv : d "--version" = .bool false) :
    (∃ flags w3, parseFlagsFromArgs env usage args w = .returned flags w3) ∨
    ∃ e, parseFlagsFromArgs env usage args w = .fatal e := by
  rcases parse_cases w hd hv with ⟨e1, he, _⟩ | ⟨w1, _, hrest⟩
  · exact Or.inr ⟨e1, he⟩
  · rcases hrest with ⟨e1, he, _⟩ | ⟨off, _, hrest⟩
    · exact Or.inr ⟨e1, he⟩
    · rcases hrest with ⟨e1, he, _⟩ | ⟨w2, _, hrest⟩
      · exact Or.inr ⟨e1, he⟩
      · rcases hrest with ⟨e1, he, _⟩ | ⟨w3, _, hrest⟩
        · exact Or.inr ⟨e1, he⟩
        · rcases hrest with ⟨e1, he, _⟩ | ⟨flags, he, _⟩
          · exact Or.inr ⟨e1, he⟩
          · exact Or.inl ⟨flags, w3, he⟩

theorem nonEmptyString_str {v : Value} {s : String} (hs : v = .str s) (hne : s ≠ "") :
    v.nonEmptyString = some s := by
  subst hs
  simp [Value.nonEmptyString, hne]

theorem docopt_unique {env : Env} {usage : String} {args : List String} {d d1 : Args}
    (hd : env.docoptParse usage args = some d) (hd1 : env.docoptParse usage args = some d1) :
    d1 = d := by
  rw [hd] at hd1
  exact (Option.some.inj hd1).symm

/-- A fatal outcome that names `--dbmap` comes from an entry of the list with
exactly two fields that is not a pair of non-negative integers. -/
theorem fatal_dbmap_entry {env : Env} {usage : String} {args : List String} {w : World}
    {d : Args} {s raw : String}
    (hd : env.docoptParse usage args = some d) (hv : d "--version" = .bool false)
    (hs : (d "--dbmap").nonEmptyString = some s)
    (h : parseFlagsFromArgs env usage args w = .fatal (.option "--dbmap" raw)) :
    raw = s ∧ ∃ m ∈ Split s ',', hasTwoFields m = true ∧ wellFormedPair m = none := by
  rcases parse_fatal_inv hd hv h with h1 | h1 | ⟨w1, _, h1⟩ | ⟨w2, h1⟩ | h1
  · obtain ⟨s1, _, he, _⟩ := resolveNcpu_error h1
    simp at he
  · obtain ⟨s1, _, he⟩ := resolveExpireOffset_error h1
    simp at he
  · obtain ⟨s1, _, _, he, _⟩ := resolveDB_error h1
    simp at he
  · obtain ⟨s1, hs1, he, hm⟩ := resolveDBMap_error h1
    rw [hs] at hs1
    have hss : s1 = s := (Option.some.inj hs1).symm
    subst hss
    simp only [Fatal.option.injEq, true_and] at he
    exact ⟨he, hm⟩
  · obtain ⟨s1, _, he, _⟩ := resolveTmpFile_error h1
    simp at he

/-- The table and the predicate a returning call leaves for a non-empty
`--dbmap` value `s`, when the table was empty before. -/
theorem returned_dbmap_state {env : Env} {usage : String} {args : List String} {w : World}
    {d : Args} {s : String} {flags : Flags} {w3 : World}
    (hd : env.docoptParse usage args = some d)
    (hs : (d "--dbmap").nonEmptyString = some s) (hw : w.dbMap = [])
    (h : parseFlagsFromArgs env usage args w = .returned flags w3) :
    w3.dbMap = GoMap.insertAll [] (wellFormedPairs s) ∧
    w3.acceptDB = .inDbMap := by
  obtain ⟨d1, w1, off, w2, tmp, hd1, _, h1, _, h3, h4, _, _⟩ := parse_returned_inv h
  have hdd := docopt_unique hd hd1
  subst hdd
  have hw2 : w2.dbMap = [] := by
    rw [(resolveDB_gomaxprocs h3).2, (resolveNcpu_dbMap h1).1, hw]
  rcases resolveDBMap_ok_cases h4 with ⟨hnone, _⟩ | ⟨s1, tbl, hs1, hl, hw3⟩
  · rw [hs] at hnone
    simp at hnone
  · rw [hs] at hs1
    have hss : s1 = s := (Option.some.inj hs1).symm
    subst hss
    rw [hw2] at hl
    have ht := dbmapLoop_ok hl
    subst hw3
    exact ⟨ht, rfl⟩

/-! ## C4: the remap table and its predicate -/

/-- C4, as stated, fails at the empty `--dbmap` value: the call returns with
an empty table, yet the predicate is still the initial one and accepts
database 7, which is not in the table. -/
theorem dbmap_empty_value_counterexample :
    parseFlagsFromArgs (exampleEnv dbmapEmptyArgs) "" [] (World.initial 1) =
      .returned
        { Source := "", Target := "", Parallel := 16, AofPath := "",
          TmpFile := { Path := "", Size := 0 }, ExpireOffset := 0 }
        { gomaxprocs := 4, acceptDB := .all, dbMap := [], acceptWrites := 0 } ∧
    World.accepts { gomaxprocs := 4, acceptDB := .all, dbMap := [], acceptWrites := 0 } 7
      = true ∧
    GoMap.contains [] 7 = false := by
  decide

/-- C4, amended: for every non-empty `--dbmap` value `s` and an initially
empty table, a call that returns leaves the table filled by inserting the
pairs of the well-formed entries in list order; every binding of the table is
such a pair, every such pair whose source has a single target in the list is
a binding, and the predicate accepts exactly the keys of the table, that is
the sources of the well-formed entries.  A failure naming `--dbmap` needs an
entry with exactly two fields that is not such a pair, so entries with another
number of fields are skipped without error; and when no such entry exists and
no other option fails, the call returns. -/
theorem dbmap_table_and_predicate (env : Env) (usage : String) (args : List String)
    (w : World) (d : Args) (s : String)
    (hd : env.docoptParse usage args = some d) (hv : d "--version" = .bool false)
    (hs : d "--dbmap" = .str s) (hne : s ≠ "") (hw : w.dbMap = []) :
    (∀ flags w3, parseFlagsFromArgs env usage args w = .returned flags w3 →
      w3.dbMap = GoMap.insertAll [] (wellFormedPairs s) ∧
      (∀ k v, w3.dbMap.get? k = some v → (k, v) ∈ wellFormedPairs s) ∧
      (∀ k v, (k, v) ∈ wellFormedPairs s →
        (∀ v1, (k, v1) ∈ wellFormedPairs s → v1 = v) → w3.dbMap.get? k = some v) ∧
      (∀ db, w3.accepts db = true ↔ w3.dbMap.contains db = true) ∧
      (∀ db, w3.accepts db = true ↔ ∃ v, (db, v) ∈ wellFormedPairs s)) ∧
    (∀ raw, parseFlagsFromArgs env usage args w = .fatal (.option "--dbmap" raw) →
      ∃ m ∈ Split s ',', hasTwoFields m = true ∧ wellFormedPair m = none) ∧
    ((∀ m ∈ Split s ',', hasTwoFields m = true → wellFormedPair m ≠ none) →
      (∀ name raw, parseFlagsFromArgs env usage args w = .fatal (.option name raw) →
        name = "--dbmap") →
      ∃ flags w3, parseFlagsFromArgs env usage args w = .returned flags w3) := by
  have hsn := nonEmptyString_str hs hne
  have hfatal : ∀ raw, parseFlagsFromArgs env usage args w = .fatal (.option "--dbmap" raw) →
      ∃ m ∈ Split s ',', hasTwoFields m = true ∧ wellFormedPair m = none :=
    fun raw h => (fatal_dbmap_entry hd hv hsn h).2
  refine ⟨?_, hfatal, ?_⟩
  · intro flags w3 h
    obtain ⟨htbl, hacc⟩ := returned_dbmap_state hd hsn hw h
    have hcontains : ∀ db, w3.dbMap.contains db = true ↔ ∃ v, (db, v) ∈ wellFormedPairs s := by
      intro db
      rw [htbl, foldl_insert_contains]
      simp [GoMap.contains, GoMap.get?]
    have haccepts : ∀ db, w3.accepts db = true ↔ w3.dbMap.contains db = true := by
      intro db
      simp [World.accepts, hacc]
    have hsome : ∀ k v, w3.dbMap.get? k = some v → (k, v) ∈ wellFormedPairs s := by
      intro k v hk
      rw [htbl] at hk
      rcases foldl_insert_get?_some _ _ _ _ hk with h1 | h1
      · exact h1
      · simp [GoMap.get?] at h1
    refine ⟨htbl, hsome, ?_, haccepts, ?_⟩
    · intro k v hkv huniq
      have hc : w3.dbMap.contains k = true := (hcontains k).mpr ⟨v, hkv⟩
      unfold GoMap.contains at hc
      cases hg : w3.dbMap.get? k with
      | none => simp [hg] at hc
      | some v1 => rw [huniq v1 (hsome k v1 hg)]
    · intro db
      rw [haccepts, hcontains]
  · intro hall hother
    rcases parse_returned_or_fatal w hd hv with hret | ⟨e, he⟩
    · exact hret
    · obtain ⟨name, raw, hname, _, _⟩ := parse_fatal_name hd hv he
      subst hname
      have hn := hother name raw he
      subst hn
      obtain ⟨m, hm, h2, h3⟩ := hfatal raw he
      exact absurd h3 (hall m hm h2)

/-- Worked input for C4: `--dbmap=0:1,garbage,2:3` returns with the table
0 -> 1, 2 -> 3 and a predicate that accepts 0 and 2 and rejects 1. -/
theorem dbmap_table_and_predicate_witness :
    (exampleEnv dbmapArgs).docoptParse "" [] = some dbmapArgs ∧
    dbmapArgs "--version" = .bool false ∧
    dbmapArgs "--dbmap" = .str "0:1,garbage,2:3" ∧
    ("0:1,garbage,2:3" : String) ≠ "" ∧
    (World.initial 1).dbMap = [] ∧
    wellFormedPairs "0:1,garbage,2:3" = [(0, 1), (2, 3)] ∧
    (∃ flags w3,
      parseFlagsFromArgs (exampleEnv dbmapArgs) "" [] (World.initial 1) =
        .returned flags w3 ∧
      w3.dbMap.get? 0 = some 1 ∧ w3.dbMap.get? 2 = some 3 ∧
      w3.accepts 0 = true ∧ w3.accepts 2 = true ∧ w3.accepts 1 = false ∧
      (∀ db, w3.accepts db = true ↔ ∃ v, (db, v) ∈ wellFormedPairs "0:1,garbage,2:3")) :=
  have hrun : parseFlagsFromArgs (exampleEnv dbmapArgs) "" [] (World.initial 1) =
      .returned
        { Source := "", Target := "", Parallel := 16, AofPath := "",
          TmpFile := { Path := "", Size := 0 }, ExpireOffset := 0 }
        { gomaxprocs := 4, acceptDB := .inDbMap, dbMap := [(2, 3), (0, 1)],
          acceptWrites := 1 } := by decide
  ⟨rfl, by decide, by decide, by decide, rfl, by decide, _, _, hrun,
    by decide, by decide, by decide, by decide, by decide,
    ((dbmap_table_and_predicate (exampleEnv dbmapArgs) "" [] (World.initial 1) dbmapArgs
      "0:1,garbage,2:3" rfl (by decide) (by decide) (by decide) rfl).1 _ _ hrun).2.2.2.2⟩

/-! ## C5: precedence of `--dbmap` over `--db` -/

theorem nonEmptyString_some {v : Value} {s : String} (h : v.nonEmptyString = some s) :
    v = .str s ∧ s ≠ "" := by
  cases v with
  | nil => simp [Value.nonEmptyString] at h
  | bool b => simp [Value.nonEmptyString] at h
  | other => simp [Value.nonEmptyString] at h
  | str t =>
    unfold Value.nonEmptyString at h
    by_cases ht : t = ""
    · simp [ht] at h
    · simp only [ht, if_false, Option.some.injEq] at h
      subst h
      exact ⟨rfl, ht⟩

theorem nonEmptyString_none {v : Value} (h : v.nonEmptyString = none) :
    v.asString = none ∨ v.asString = some "" := by
  cases v with
  | nil => exact Or.inl rfl
  | bool b => exact Or.inl rfl
  | other => exact Or.inl rfl
  | str t =>
    unfold Value.nonEmptyString at h
    by_cases ht : t = ""
    · subst ht
      exact Or.inr rfl
    · simp [ht] at h

theorem beq_toNat_eq_decide (db : Nat) {n : Int} (h0 : 0 ≤ n) :
    (db == n.toNat) = decide ((db : Int) = n) := by
  by_cases h : (db : Int) = n
  · have h1 : db = n.toNat := by omega
    simp [h, h1, h0]
  · have h1 : ¬ db = n.toNat := by omega
    simp [h, h1]

/-- C5: whenever the call returns from a state in which the predicate is the
initial accept-all one, the final predicate agrees on every database id with
the precedence rule, evaluated on the final table: membership in the table if
`--dbmap` is present and non-empty, else equality with `N` if `--db` holds
the integer `N`, else true. -/
theorem accept_follows_precedence (env : Env) (usage : String) (args : List String)
    (w : World) (d : Args) (flags : Flags) (w3 : World)
    (hd : env.docoptParse usage args = some d) (hw : w.acceptDB = .all)
    (h : parseFlagsFromArgs env usage args w = .returned flags w3) :
    ∀ db, w3.accepts db = precedenceRule d w3.dbMap db := by
  intro db
  obtain ⟨d1, w1, off, w2, tmp, hd1, _, h1, _, h3, h4, _, _⟩ := parse_returned_inv h
  have hdd := docopt_unique hd hd1
  subst hdd
  have hw1 : w1.acceptDB = .all := by rw [(resolveNcpu_dbMap h1).2.1, hw]
  unfold precedenceRule
  rcases resolveDBMap_ok_cases h4 with ⟨hnone, hw3⟩ | ⟨s1, tbl, hs1, _, hw3⟩
  · subst hw3
    simp only [hnone]
    rcases resolveDB_ok_cases h3 with ⟨hdb, hw2⟩ | ⟨s, n, hs, hstar, hn, h0, hw2⟩
    · subst hw2
      have hacc : w3.accepts db = true := by simp [World.accepts, hw1]
      rw [hacc]
      rcases hdb with hdb | hdb
      · rcases nonEmptyString_none hdb with ha | ha
        · simp [ha]
        · have hatoi : Atoi "" = none := by decide
          simp [ha, hatoi]
      · have ha : (d1 "--db").asString = some "*" := by
          rw [(nonEmptyString_some hdb).1]
          rfl
        simp [ha]
    · subst hw2
      have ha : (d1 "--db").asString = some s := by
        rw [(nonEmptyString_some hs).1]
        rfl
      simp only [ha, hstar, if_false, hn]
      simp only [World.accepts, World.setAcceptDB]
      rw [uint64_atoi hn h0]
      exact beq_toNat_eq_decide db h0
  · subst hw3
    simp only [hs1]
    rfl

/-- Worked input for C5: with `--db=5 --dbmap=1:1` database 5 is not accepted
and database 1 is. -/
theorem accept_follows_precedence_witness :
    (exampleEnv dbAndDbmapArgs).docoptParse "" [] = some dbAndDbmapArgs ∧
    (World.initial 1).acceptDB = .all ∧
    (∃ flags w3,
      parseFlagsFromArgs (exampleEnv dbAndDbmapArgs) "" [] (World.initial 1) =
        .returned flags w3 ∧
      w3.accepts 5 = false ∧ w3.accepts 1 = true ∧
      precedenceRule dbAndDbmapArgs w3.dbMap 5 = false ∧
      ∀ db, w3.accepts db = precedenceRule dbAndDbmapArgs w3.dbMap db) :=
  have hrun : parseFlagsFromArgs (exampleEnv dbAndDbmapArgs) "" [] (World.initial 1) =
      .returned
        { Source := "", Target := "", Parallel := 16, AofPath := "",
          TmpFile := { Path := "", Size := 0 }, ExpireOffset := 0 }
        { gomaxprocs := 4, acceptDB := .inDbMap, dbMap := [(1, 1)], acceptWrites := 2 } := by
    decide
  ⟨rfl, rfl, _, _, hrun, by decide, by decide, by decide,
    accept_follows_precedence (exampleEnv dbAndDbmapArgs) "" [] (World.initial 1)
      dbAndDbmapArgs _ _ rfl rfl hrun⟩

/-! ## C6: the option `--db` alone -/

/-- A fatal outcome that names `--db` comes from a value other than `*` that
does not parse or parses as a negative integer. -/
theorem fatal_db_value {env : Env} {usage : String} {args : List String} {w : World}
    {d : Args} {raw : String}
    (hd : env.docoptParse usage args = some d) (hv : d "--version" = .bool false)
    (h : parseFlagsFromArgs env usage args w = .fatal (.option "--db" raw)) :
    (d "--db").nonEmptyString = some raw ∧ raw ≠ "*" ∧
      (Atoi raw = none ∨ ∃ n, Atoi raw = some n ∧ n < 0) := by
  rcases parse_fatal_inv hd hv h with h1 | h1 | ⟨w1, _, h1⟩ | ⟨w2, h1⟩ | h1
  · obtain ⟨s1, _, he, _⟩ := resolveNcpu_error h1
    simp at he
  · obtain ⟨s1, _, he⟩ := resolveExpireOffset_error h1
    simp at he
  · obtain ⟨s1, hs1, hstar, he, hbad⟩ := resolveDB_error h1
    simp only [Fatal.option.injEq, true_and] at he
    subst he
    exact ⟨hs1, hstar, hbad⟩
  · obtain ⟨s1, _, he, _⟩ := resolveDBMap_error h1
    simp at he
  · obtain ⟨s1, _, he, _⟩ := resolveTmpFile_error h1
    simp at he

/-- The state a returning call leaves when `--dbmap` is absent or empty. -/
theorem returned_db_state {env : Env} {usage : String} {args : List String} {w : World}
    {d : Args} {flags : Flags} {w3 : World}
    (hd : env.docoptParse usage args = some d)
    (hmap : (d "--dbmap").nonEmptyString = none)
    (h : parseFlagsFromArgs env usage args w = .returned flags w3) :
    ∃ w1, resolveNcpu env d w = .ok w1 ∧ resolveDB d w1 = .ok w3 := by
  obtain ⟨d1, w1, off, w2, tmp, hd1, _, h1, _, h3, h4, _, _⟩ := parse_returned_inv h
  have hdd := docopt_unique hd hd1
  subst hdd
  rcases resolveDBMap_ok_cases h4 with ⟨_, hw3⟩ | ⟨s1, tbl, hs1, _, _⟩
  · subst hw3
    exact ⟨w1, h1, h3⟩
  · rw [hmap] at hs1
    simp at hs1

/-- C6, as stated, fails at the empty `--db` value: it does not parse as an
integer, yet the call returns and the predicate stays accept-all. -/
theorem db_empty_value_counterexample :
    dbEmptyArgs "--db" = .str "" ∧ Atoi "" = none ∧
    parseFlagsFromArgs (exampleEnv dbEmptyArgs) "" [] (World.initial 1) =
      .returned
        { Source := "", Target := "", Parallel := 16, AofPath := "",
          TmpFile := { Path := "", Size := 0 }, ExpireOffset := 0 }
        { gomaxprocs := 4, acceptDB := .all, dbMap := [], acceptWrites := 0 } := by
  decide

/-- C6, amended: for a non-empty `--db` value `s`, with `--dbmap` absent or
empty and the predicate initially accept-all: if `s` is `*`, a returning call
leaves the predicate unwritten and accepting every id; if `s` parses as an
integer `n >= 0`, a returning call leaves a predicate that is true exactly at
`n`; in both cases no failure names `--db`, and the call returns when no other
option fails.  If `s` is not `*` and does not parse or parses as a negative
integer, the call is fatal, and the diagnostic names `--db` with `s` unless an
earlier option fails. -/
theorem db_option_alone (env : Env) (usage : String) (args : List String) (w : World)
    (d : Args) (s : String)
    (hd : env.docoptParse usage args = some d) (hv : d "--version" = .bool false)
    (hs : d "--db" = .str s) (hne : s ≠ "")
    (hmap : (d "--dbmap").nonEmptyString = none) (hw : w.acceptDB = .all) :
    (s = "*" →
      (∀ flags w3, parseFlagsFromArgs env usage args w = .returned flags w3 →
        w3.acceptDB = .all ∧ w3.acceptWrites = w.acceptWrites ∧
        ∀ db, w3.accepts db = true)) ∧
    (∀ n, Atoi s = some n → 0 ≤ n →
      (∀ flags w3, parseFlagsFromArgs env usage args w = .returned flags w3 →
        ∀ db, (w3.accepts db = true ↔ (db : Int) = n))) ∧
    ((s = "*" ∨ ∃ n, Atoi s = some n ∧ 0 ≤ n) →
      (∀ raw, parseFlagsFromArgs env usage args w ≠ .fatal (.option "--db" raw)) ∧
      ((∀ name raw, parseFlagsFromArgs env usage args w = .fatal (.option name raw) →
          name = "--db") →
        ∃ flags w3, parseFlagsFromArgs env usage args w = .returned flags w3)) ∧
    (s ≠ "*" → (Atoi s = none ∨ ∃ n, Atoi s = some n ∧ n < 0) →
      (∃ e, parseFlagsFromArgs env usage args w = .fatal e) ∧
      ((∀ name raw, parseFlagsFromArgs env usage args w = .fatal (.option name raw) →
          name = "--db") →
        parseFlagsFromArgs env usage args w = .fatal (.option "--db" s))) := by
  have hsn := nonEmptyString_str hs hne
  refine ⟨?_, ?_, ?_, ?_⟩
  · intro hstar flags w3 h
    obtain ⟨w1, h1, h3⟩ := returned_db_state hd hmap h
    have hw1 := resolveNcpu_dbMap h1
    rcases resolveDB_ok_cases h3 with ⟨_, hw3⟩ | ⟨s1, n, hs1, hns, _, _, _⟩
    · subst hw3
      have hacc : w3.acceptDB = .all := by rw [hw1.2.1, hw]
      exact ⟨hacc, hw1.2.2, fun db => by simp [World.accepts, hacc]⟩
    · rw [hsn] at hs1
      have hss : s1 = s := (Option.some.inj hs1).symm
      subst hss
      exact absurd hstar hns
  · intro n hn h0 flags w3 h db
    obtain ⟨w1, h1, h3⟩ := returned_db_state hd hmap h
    rcases resolveDB_ok_cases h3 with ⟨hcase, _⟩ | ⟨s1, n1, hs1, _, hn1, _, hw3⟩
    · rcases hcase with hc | hc
      · rw [hsn] at hc
        simp at hc
      · rw [hsn] at hc
        have hstar : s = "*" := Option.some.inj hc
        subst hstar
        have hbad : Atoi "*" = none := by decide
        rw [hbad] at hn
        simp at hn
    · rw [hsn] at hs1
      have hss : s1 = s := (Option.some.inj hs1).symm
      subst hss
      rw [hn] at hn1
      have hnn : n1 = n := (Option.some.inj hn1).symm
      subst hnn
      subst hw3
      simp only [World.accepts, World.setAcceptDB]
      rw [uint64_atoi hn h0, beq_toNat_eq_decide db h0]
      simp
  · intro hgood
    have hnofatal : ∀ raw, parseFlagsFromArgs env usage args w ≠ .fatal (.option "--db" raw) := by
      intro raw h
      obtain ⟨hraw, hstar, hbad⟩ := fatal_db_value hd hv h
      rw [hsn] at hraw
      have hss : raw = s := (Option.some.inj hraw).symm
      subst hss
      rcases hgood with hg | ⟨n, hn, h0⟩
      · exact hstar hg
      · rcases hbad with hb | ⟨n1, hn1, hneg⟩
        · rw [hn] at hb
          simp at hb
        · rw [hn] at hn1
          have hnn : n1 = n := (Option.some.inj hn1).symm
          omega
    refine ⟨hnofatal, ?_⟩
    intro hother
    rcases parse_returned_or_fatal w hd hv with hret | ⟨e, he⟩
    · exact hret
    · obtain ⟨name, raw, hname, _, _⟩ := parse_fatal_name hd hv he
      subst hname
      have hn := hother name raw he
      subst hn
      exact absurd he (hnofatal raw)
  · intro hstar hbad
    have hfatal : ∃ e, parseFlagsFromArgs env usage args w = .fatal e := by
      rcases parse_returned_or_fatal w hd hv with ⟨flags, w3, h⟩ | hf
      · obtain ⟨w1, h1, h3⟩ := returned_db_state hd hmap h
        rcases resolveDB_ok_cases h3 with ⟨hcase, _⟩ | ⟨s1, n1, hs1, _, hn1, h0, _⟩
        · rcases hcase with hc | hc
          · rw [hsn] at hc
            simp at hc
          · rw [hsn] at hc
            exact absurd (Option.some.inj hc) hstar
        · rw [hsn] at hs1
          have hss : s1 = s := (Option.some.inj hs1).symm
          subst hss
          rcases hbad with hb | ⟨n, hn, hneg⟩
          · rw [hn1] at hb
            simp at hb
          · rw [hn1] at hn
            have hnn : n = n1 := (Option.some.inj hn).symm
            omega
      · exact hf
    refine ⟨hfatal, ?_⟩
    intro hother
    obtain ⟨e, he⟩ := hfatal
    obtain ⟨name, raw, hname, hraw, _⟩ := parse_fatal_name hd hv he
    subst hname
    have hn := hother name raw he
    subst hn
    rw [hsn] at hraw
    have hss : raw = s := (Option.some.inj hraw).symm
    subst hss
    exact he

/-- Worked input for C6: `--db=3` returns with a predicate true exactly at 3. -/
theorem db_option_alone_witness :
    (exampleEnv dbThreeArgs).docoptParse "" [] = some dbThreeArgs ∧
    dbThreeArgs "--version" = .bool false ∧
    dbThreeArgs "--db" = .str "3" ∧ ("3" : String) ≠ "" ∧
    (dbThreeArgs "--dbmap").nonEmptyString = none ∧
    (World.initial 1).acceptDB = .all ∧
    Atoi "3" = some 3 ∧
    (∃ flags w3,
      parseFlagsFromArgs (exampleEnv dbThreeArgs) "" [] (World.initial 1) =
        .returned flags w3 ∧
      w3.accepts 3 = true ∧ w3.accepts 4 = false ∧
      ∀ db, (w3.accepts db = true ↔ (db : Int) = 3)) :=
  have hrun : parseFlagsFromArgs (exampleEnv dbThreeArgs) "" [] (World.initial 1) =
      .returned
        { Source := "", Target := "", Parallel := 16, AofPath := "",
          TmpFile := { Path := "", Size := 0 }, ExpireOffset := 0 }
        { gomaxprocs := 4, acceptDB := .equals 3, dbMap := [], acceptWrites := 1 } := by
    decide
  ⟨rfl, by decide, by decide, by decide, by decide, rfl, by decide, _, _, hrun,
    by decide, by decide,
    (db_option_alone (exampleEnv dbThreeArgs) "" [] (World.initial 1) dbThreeArgs "3"
      rfl (by decide) (by decide) (by decide) (by decide) rfl).2.1 3 (by decide) (by decide)
      _ _ hrun⟩

/-! ## C7: validation of `--ncpu` -/

/-- The `--ncpu` step is the first one: its failure is the outcome. -/
theorem fatal_of_resolveNcpu_error {env : Env} {usage : String} {args : List String}
    {w : World} {d : Args} {e : Fatal}
    (hd : env.docoptParse usage args = some d) (hv : d "--version" = .bool false)
    (h : resolveNcpu env d w = .error e) :
    parseFlagsFromArgs env usage args w = .fatal e := by
  rw [parse_unfold hd hv]
  simp only [h]

theorem resolveNcpu_of_bad {env : Env} {d : Args} {w : World} {s : String}
    (hs : (d "--ncpu").nonEmptyString = some s)
    (hbad : Atoi s = none ∨ ∃ n, Atoi s = some n ∧ (n < 1 ∨ 1024 < n)) :
    resolveNcpu env d w = .error (.option "--ncpu" s) := by
  unfold resolveNcpu
  simp only [hs]
  rcases hbad with hb | ⟨n, hn, hr⟩
  · simp only [hb]
  · have hr1 : n ≤ 0 ∨ 1024 < n := by omega
    simp only [hn, hr1, if_true]

theorem resolveNcpu_of_good {env : Env} {d : Args} {w : World} {s : String} {n : Int}
    (hs : (d "--ncpu").nonEmptyString = some s)
    (hn : Atoi s = some n) (h1 : 1 ≤ n) (h2 : n ≤ 1024) :
    resolveNcpu env d w = .ok { w with gomaxprocs := n } := by
  unfold resolveNcpu
  have hr1 : ¬ (n ≤ 0 ∨ 1024 < n) := by omega
  have hr2 : ¬ n < 1 := by omega
  simp only [hs, hn, hr1, if_false, GOMAXPROCS, hr2]

/-- C7: for a non-empty `--ncpu` value `s` (option map parsed, `--version`
false) the call ends in the fatal diagnostic for `--ncpu` with `s` if and only
if `s` does not parse as an integer or the integer lies outside [1, 1024]; so
if no other option fails, the call fails exactly in that case.  When `s`
parses as `n` in [1, 1024], every returning call has the processor count `n`
and `Parallel` chosen from `n`, and the call returns when no other option
fails.  The values "0", "1025" and "abc" fail. -/
theorem ncpu_validation (env : Env) (usage : String) (args : List String) (w : World)
    (d : Args) (s : String)
    (hd : env.docoptParse usage args = some d) (hv : d "--version" = .bool false)
    (hs : d "--ncpu" = .str s) (hne : s ≠ "") :
    (parseFlagsFromArgs env usage args w = .fatal (.option "--ncpu" s) ↔
      (Atoi s = none ∨ ∃ n, Atoi s = some n ∧ (n < 1 ∨ 1024 < n))) ∧
    ((∀ name raw, parseFlagsFromArgs env usage args w = .fatal (.option name raw) →
        name = "--ncpu") →
      ((∃ e, parseFlagsFromArgs env usage args w = .fatal e) ↔
        (Atoi s = none ∨ ∃ n, Atoi s = some n ∧ (n < 1 ∨ 1024 < n)))) ∧
    (∀ n, Atoi s = some n → 1 ≤ n → n ≤ 1024 →
      (∀ flags w3, parseFlagsFromArgs env usage args w = .returned flags w3 →
        w3.gomaxprocs = n ∧ flags.Parallel = parallelOf n) ∧
      ((∀ name raw, parseFlagsFromArgs env usage args w = .fatal (.option name raw) →
          name = "--ncpu") →
        ∃ flags w3, parseFlagsFromArgs env usage args w = .returned flags w3 ∧
          w3.gomaxprocs = n ∧ flags.Parallel = parallelOf n)) ∧
    ((s = "0" ∨ s = "1025" ∨ s = "abc") →
      parseFlagsFromArgs env usage args w = .fatal (.option "--ncpu" s)) := by
  have hsn := nonEmptyString_str hs hne
  have hiff : parseFlagsFromArgs env usage args w = .fatal (.option "--ncpu" s) ↔
      (Atoi s = none ∨ ∃ n, Atoi s = some n ∧ (n < 1 ∨ 1024 < n)) := by
    constructor
    · intro h
      rcases parse_fatal_inv hd hv h with h1 | h1 | ⟨w1, _, h1⟩ | ⟨w2, h1⟩ | h1
      · obtain ⟨s1, hs1, _, hbad⟩ := resolveNcpu_error h1
        rw [hsn] at hs1
        have hss : s1 = s := (Option.some.inj hs1).symm
        subst hss
        exact hbad
      · obtain ⟨s1, _, he⟩ := resolveExpireOffset_error h1
        simp at he
      · obtain ⟨s1, _, _, he, _⟩ := resolveDB_error h1
        simp at he
      · obtain ⟨s1, _, he, _⟩ := resolveDBMap_error h1
        simp at he
      · obtain ⟨s1, _, he, _⟩ := resolveTmpFile_error h1
        simp at he
    · intro hbad
      exact fatal_of_resolveNcpu_error hd hv (resolveNcpu_of_bad hsn hbad)
  have hret : ∀ n, Atoi s = some n → 1 ≤ n → n ≤ 1024 →
      ∀ flags w3, parseFlagsFromArgs env usage args w = .returned flags w3 →
        w3.gomaxprocs = n ∧ flags.Parallel = parallelOf n := by
    intro n hn h1 h2 flags w3 h
    obtain ⟨d1, w1, off, w2, tmp, hd1, _, hn1, _, h3, h4, _, hf⟩ := parse_returned_inv h
    have hdd := docopt_unique hd hd1
    subst hdd
    rw [resolveNcpu_of_good hsn hn h1 h2] at hn1
    have hw1 : w1.gomaxprocs = n := by
      rw [← Except.ok.inj hn1]
    refine ⟨?_, ?_⟩
    · rw [resolveDBMap_gomaxprocs h4, (resolveDB_gomaxprocs h3).1, hw1]
    · rw [hf, hw1]
  refine ⟨hiff, ?_, ?_, ?_⟩
  · intro hother
    constructor
    · rintro ⟨e, he⟩
      obtain ⟨name, raw, hname, hraw, _⟩ := parse_fatal_name hd hv he
      subst hname
      have hn := hother name raw he
      subst hn
      rw [hsn] at hraw
      have hss : raw = s := (Option.some.inj hraw).symm
      subst hss
      exact hiff.mp he
    · intro hbad
      exact ⟨_, hiff.mpr hbad⟩
  · intro n hn h1 h2
    refine ⟨hret n hn h1 h2, ?_⟩
    intro hother
    rcases parse_returned_or_fatal w hd hv with ⟨flags, w3, h⟩ | ⟨e, he⟩
    · exact ⟨flags, w3, h, hret n hn h1 h2 flags w3 h⟩
    · obtain ⟨name, raw, hname, hraw, _⟩ := parse_fatal_name hd hv he
      subst hname
      have hnm := hother name raw he
      subst hnm
      rw [hsn] at hraw
      have hss : raw = s := (Option.some.inj hraw).symm
      subst hss
      rcases hiff.mp he with hb | ⟨n1, hn1, hr⟩
      · rw [hn] at hb
        simp at hb
      · rw [hn] at hn1
        have hnn : n1 = n := (Option.some.inj hn1).symm
        omega
  · intro h3
    apply hiff.mpr
    rcases h3 with h0 | h0 | h0
    · subst h0
      exact Or.inr ⟨0, by decide, by decide⟩
    · subst h0
      exact Or.inr ⟨1025, by decide, by decide⟩
    · subst h0
      exact Or.inl (by decide)

/-- Worked input for C7: `--ncpu=1024` is accepted, the processor count is
1024 and `Parallel` is 2048. -/
theorem ncpu_validation_witness :
    (exampleEnv ncpuMaxArgs).docoptParse "" [] = some ncpuMaxArgs ∧
    ncpuMaxArgs "--version" = .bool false ∧
    ncpuMaxArgs "--ncpu" = .str "1024" ∧ ("1024" : String) ≠ "" ∧
    Atoi "1024" = some 1024 ∧
    (∃ flags w3,
      parseFlagsFromArgs (exampleEnv ncpuMaxArgs) "" [] (World.initial 1) =
        .returned flags w3 ∧
      flags.Parallel = 2048 ∧
      w3.gomaxprocs = 1024 ∧ flags.Parallel = parallelOf 1024) :=
  have hrun : parseFlagsFromArgs (exampleEnv ncpuMaxArgs) "" [] (World.initial 1) =
      .returned
        { Source := "", Target := "", Parallel := 2048, AofPath := "",
          TmpFile := { Path := "", Size := 0 }, ExpireOffset := 0 }
        { gomaxprocs := 1024, acceptDB := .all, dbMap := [], acceptWrites := 0 } := by
    decide
  ⟨rfl, by decide, by decide, by decide, by decide, _, _, hrun, by decide,
    ((ncpu_validation (exampleEnv ncpuMaxArgs) "" [] (World.initial 1) ncpuMaxArgs "1024"
      rfl (by decide) (by decide) (by decide)).2.2.1 1024 (by decide) (by decide)
      (by decide)).1 _ _ hrun⟩

/-! ## C8, C9, C10: the spill file -/

theorem resolveTmpFile_ok {env : Env} {d : Args} {cur tmp : TmpFileT}
    (h : resolveTmpFile env d cur = .ok tmp) :
    tmp.Path = ((d "--tmpfile").asString).getD cur.Path ∧
    (∀ s, (d "--tmpfile-size").nonEmptyString = some s →
      env.bytesizeParse s = some tmp.Size ∧ 0 < tmp.Size) ∧
    ((d "--tmpfile-size").nonEmptyString = none →
      tmp.Size = if tmp.Path ≠ "" then bytesizeGB * 2 else cur.Size) := by
  unfold resolveTmpFile at h
  have hpath : (match (d "--tmpfile").asString with
      | some s => s
      | none => cur.Path) = ((d "--tmpfile").asString).getD cur.Path := by
    cases (d "--tmpfile").asString <;> rfl
  rw [hpath] at h
  cases hs : (d "--tmpfile-size").nonEmptyString with
  | none =>
    simp only [hs] at h
    by_cases hp : ((d "--tmpfile").asString).getD cur.Path ≠ ""
    · rw [if_pos hp] at h
      simp only [Except.ok.injEq] at h
      subst h
      refine ⟨rfl, fun s1 hs1 => by simp at hs1, fun _ => ?_⟩
      simp only
      rw [if_pos hp]
    · rw [if_neg hp] at h
      simp only [Except.ok.injEq] at h
      subst h
      refine ⟨rfl, fun s1 hs1 => by simp at hs1, fun _ => ?_⟩
      simp only
      rw [if_neg hp]
  | some s =>
    simp only [hs] at h
    cases hn : env.bytesizeParse s with
    | none => simp [hn] at h
    | some n =>
      simp only [hn] at h
      by_cases hr : n ≤ 0
      · simp [hr] at h
      · simp only [hr, if_false, Except.ok.injEq] at h
        subst h
        refine ⟨rfl, ?_, ?_⟩
        · intro s1 hs1
          have hss : s1 = s := (Option.some.inj hs1).symm
          subst hss
          exact ⟨hn, by simp only; omega⟩
        · intro hnone
          simp at hnone

theorem returned_tmpfile {env : Env} {usage : String} {args : List String} {w : World}
    {d : Args} {flags : Flags} {w3 : World}
    (hd : env.docoptParse usage args = some d)
    (h : parseFlagsFromArgs env usage args w = .returned flags w3) :
    resolveTmpFile env d Flags.zero.TmpFile = .ok flags.TmpFile := by
  obtain ⟨d1, w1, off, w2, tmp, hd1, _, _, _, _, _, h5, hf⟩ := parse_returned_inv h
  have hdd := docopt_unique hd hd1
  subst hdd
  rw [hf]
  exact h5

/-- A fatal outcome that names `--tmpfile-size` comes from a value the
byte-size parser rejects or reads as a size that is not positive. -/
theorem fatal_tmpfile_size_value {env : Env} {usage : String} {args : List String}
    {w : World} {d : Args} {raw : String}
    (hd : env.docoptParse usage args = some d) (hv : d "--version" = .bool false)
    (h : parseFlagsFromArgs env usage args w = .fatal (.option "--tmpfile-size" raw)) :
    (d "--tmpfile-size").nonEmptyString = some raw ∧
      (env.bytesizeParse raw = none ∨ ∃ n, env.bytesizeParse raw = some n ∧ n ≤ 0) := by
  rcases parse_fatal_inv hd hv h with h1 | h1 | ⟨w1, _, h1⟩ | ⟨w2, h1⟩ | h1
  · obtain ⟨s1, _, he, _⟩ := resolveNcpu_error h1
    simp at he
  · obtain ⟨s1, _, he⟩ := resolveExpireOffset_error h1
    simp at he
  · obtain ⟨s1, _, _, he, _⟩ := resolveDB_error h1
    simp at he
  · obtain ⟨s1, _, he, _⟩ := resolveDBMap_error h1
    simp at he
  · obtain ⟨s1, hs1, he, hbad⟩ := resolveTmpFile_error h1
    simp only [Fatal.option.injEq, true_and] at he
    subst he
    exact ⟨hs1, hbad⟩

/-- C8, as stated, fails: with `--tmpfile` absent and `--tmpfile-size=1gb`
(read as 1073741824 by the byte-size parser) the call returns with an empty
path and `TmpFile.Size = 1073741824`. -/
theorem tmpfile_absent_size_counterexample :
    sizeOnlyArgs "--tmpfile" = .nil ∧
    (exampleEnv sizeOnlyArgs).bytesizeParse "1gb" = some 1073741824 ∧
    parseFlagsFromArgs (exampleEnv sizeOnlyArgs) "" [] (World.initial 1) =
      .returned
        { Source := "", Target := "", Parallel := 16, AofPath := "",
          TmpFile := { Path := "", Size := 1073741824 }, ExpireOffset := 0 }
        { gomaxprocs := 4, acceptDB := .all, dbMap := [], acceptWrites := 0 } := by
  decide

/-- C8, amended: whenever the call returns and `--tmpfile` is absent, the path
is empty; the size is zero if `--tmpfile-size` is absent or empty as well, and
otherwise it is the positive size the byte-size parser reads from
`--tmpfile-size`. -/
theorem tmpfile_absent_size (env : Env) (usage : String) (args : List String) (w : World)
    (d : Args) (flags : Flags) (w3 : World)
    (hd : env.docoptParse usage args = some d)
    (habs : (d "--tmpfile").asString = none)
    (h : parseFlagsFromArgs env usage args w = .returned flags w3) :
    flags.TmpFile.Path = "" ∧
    ((d "--tmpfile-size").nonEmptyString = none → flags.TmpFile.Size = 0) ∧
    (∀ s, (d "--tmpfile-size").nonEmptyString = some s →
      env.bytesizeParse s = some flags.TmpFile.Size ∧ 0 < flags.TmpFile.Size) := by
  obtain ⟨hpath, hsome, hnone⟩ := resolveTmpFile_ok (returned_tmpfile hd h)
  have hp : flags.TmpFile.Path = "" := by
    rw [hpath, habs]
    rfl
  refine ⟨hp, ?_, hsome⟩
  intro hsz
  rw [hnone hsz]
  simp [hp, Flags.zero]

/-- Worked input for C8: with neither `--tmpfile` nor `--tmpfile-size` the
size is zero. -/
theorem tmpfile_absent_size_witness :
    (exampleEnv plainArgs).docoptParse "" [] = some plainArgs ∧
    (plainArgs "--tmpfile").asString = none ∧
    (plainArgs "--tmpfile-size").nonEmptyString = none ∧
    (∃ flags w3,
      parseFlagsFromArgs (exampleEnv plainArgs) "" [] (World.initial 1) =
        .returned flags w3 ∧
      flags.TmpFile.Size = 0) :=
  have hrun : parseFlagsFromArgs (exampleEnv plainArgs) "" [] (World.initial 1) =
      .returned
        { Source := "", Target := "", Parallel := 16, AofPath := "",
          TmpFile := { Path := "", Size := 0 }, ExpireOffset := 0 }
        { gomaxprocs := 4, acceptDB := .all, dbMap := [], acceptWrites := 0 } := by
    decide
  ⟨rfl, by decide, by decide, _, _, hrun,
    (tmpfile_absent_size (exampleEnv plainArgs) "" [] (World.initial 1) plainArgs _ _
      rfl (by decide) hrun).2.1 (by decide)⟩

/-- C9: for a non-empty `--tmpfile` value `p` with `--tmpfile-size` absent or
empty (option map parsed, `--version` false), every returning call has
`TmpFile.Path = p` and `TmpFile.Size = 2147483648`; no failure names
`--tmpfile-size`, and the call returns when no other option fails. -/
theorem tmpfile_default_size (env : Env) (usage : String) (args : List String) (w : World)
    (d : Args) (p : String)
    (hd : env.docoptParse usage args = some d) (hv : d "--version" = .bool false)
    (hp : d "--tmpfile" = .str p) (hpne : p ≠ "")
    (hsz : (d "--tmpfile-size").nonEmptyString = none) :
    (∀ flags w3, parseFlagsFromArgs env usage args w = .returned flags w3 →
      flags.TmpFile.Path = p ∧ flags.TmpFile.Size = 2147483648) ∧
    (∀ raw, parseFlagsFromArgs env usage args w ≠ .fatal (.option "--tmpfile-size" raw)) ∧
    ((∀ name raw, parseFlagsFromArgs env usage args w = .fatal (.option name raw) →
        name = "--tmpfile-size") →
      ∃ flags w3, parseFlagsFromArgs env usage args w = .returned flags w3 ∧
        flags.TmpFile.Path = p ∧ flags.TmpFile.Size = 2147483648) := by
  have hret : ∀ flags w3, parseFlagsFromArgs env usage args w = .returned flags w3 →
      flags.TmpFile.Path = p ∧ flags.TmpFile.Size = 2147483648 := by
    intro flags w3 h
    obtain ⟨hpath, _, hnone⟩ := resolveTmpFile_ok (returned_tmpfile hd h)
    have hpp : flags.TmpFile.Path = p := by
      rw [hpath, hp]
      rfl
    refine ⟨hpp, ?_⟩
    rw [hnone hsz, hpp]
    simp [hpne, bytesizeGB]
  have hnofatal : ∀ raw,
      parseFlagsFromArgs env usage args w ≠ .fatal (.option "--tmpfile-size" raw) := by
    intro raw h
    have h1 := (fatal_tmpfile_size_value hd hv h).1
    rw [hsz] at h1
    simp at h1
  refine ⟨hret, hnofatal, ?_⟩
  intro hother
  rcases parse_returned_or_fatal w hd hv with ⟨flags, w3, h⟩ | ⟨e, he⟩
  · exact ⟨flags, w3, h, hret flags w3 h⟩
  · obtain ⟨name, raw, hname, _, _⟩ := parse_fatal_name hd hv he
    subst hname
    have hn := hother name raw he
    subst hn
    exact absurd he (hnofatal raw)

/-- Worked input for C9: `--tmpfile=/tmp/x` alone gives the size 2147483648. -/
theorem tmpfile_default_size_witness :
    (exampleEnv pathOnlyArgs).docoptParse "" [] = some pathOnlyArgs ∧
    pathOnlyArgs "--version" = .bool false ∧
    pathOnlyArgs "--tmpfile" = .str "/tmp/x" ∧ ("/tmp/x" : String) ≠ "" ∧
    (pathOnlyArgs "--tmpfile-size").nonEmptyString = none ∧
    (∃ flags w3,
      parseFlagsFromArgs (exampleEnv pathOnlyArgs) "" [] (World.initial 1) =
        .returned flags w3 ∧
      flags.TmpFile.Path = "/tmp/x" ∧ flags.TmpFile.Size = 2147483648) :=
  have hrun : parseFlagsFromArgs (exampleEnv pathOnlyArgs) "" [] (World.initial 1) =
      .returned
        { Source := "", Target := "", Parallel := 16, AofPath := "",
          TmpFile := { Path := "/tmp/x", Size := 2147483648 }, ExpireOffset := 0 }
        { gomaxprocs := 4, acceptDB := .all, dbMap := [], acceptWrites := 0 } := by
    decide
  ⟨rfl, by decide, by decide, by decide, by decide, _, _, hrun,
    (tmpfile_default_size (exampleEnv pathOnlyArgs) "" [] (World.initial 1) pathOnlyArgs
      "/tmp/x" rfl (by decide) (by decide) (by decide) (by decide)).1 _ _ hrun⟩

/-- C10: for a non-empty `--tmpfile-size` value `s` (option map parsed,
`--version` false): if the byte-size parser rejects `s` or returns a value
`<= 0` the call is fatal; a failure naming `--tmpfile-size` occurs only in
that case; so if no other option fails, the call fails exactly in that case.
When the parser returns `n > 0`, every returning call has `TmpFile.Size = n`,
and the call returns when no other option fails.  The value "0", read as 0 by
the parser, fails. -/
theorem tmpfile_size_validation (env : Env) (usage : String) (args : List String)
    (w : World) (d : Args) (s : String)
    (hd : env.docoptParse usage args = some d) (hv : d "--version" = .bool false)
    (hs : d "--tmpfile-size" = .str s) (hne : s ≠ "") :
    ((env.bytesizeParse s = none ∨ ∃ n, env.bytesizeParse s = some n ∧ n ≤ 0) →
      ∃ e, parseFlagsFromArgs env usage args w = .fatal e) ∧
    (parseFlagsFromArgs env usage args w = .fatal (.option "--tmpfile-size" s) →
      (env.bytesizeParse s = none ∨ ∃ n, env.bytesizeParse s = some n ∧ n ≤ 0)) ∧
    ((∀ name raw, parseFlagsFromArgs env usage args w = .fatal (.option name raw) →
        name = "--tmpfile-size") →
      ((∃ e, parseFlagsFromArgs env usage args w = .fatal e) ↔
        (env.bytesizeParse s = none ∨ ∃ n, env.bytesizeParse s = some n ∧ n ≤ 0))) ∧
    (∀ n, env.bytesizeParse s = some n → 0 < n →
      (∀ flags w3, parseFlagsFromArgs env usage args w = .returned flags w3 →
        flags.TmpFile.Size = n) ∧
      ((∀ name raw, parseFlagsFromArgs env usage args w = .fatal (.option name raw) →
          name = "--tmpfile-size") →
        ∃ flags w3, parseFlagsFromArgs env usage args w = .returned flags w3 ∧
          flags.TmpFile.Size = n)) ∧
    (s = "0" → env.bytesizeParse "0" = some 0 →
      ∃ e, parseFlagsFromArgs env usage args w = .fatal e) := by
  have hsn := nonEmptyString_str hs hne
  have hret : ∀ flags w3, parseFlagsFromArgs env usage args w = .returned flags w3 →
      env.bytesizeParse s = some flags.TmpFile.Size ∧ 0 < flags.TmpFile.Size := by
    intro flags w3 h
    exact (resolveTmpFile_ok (returned_tmpfile hd h)).2.1 s hsn
  have hfail : (env.bytesizeParse s = none ∨ ∃ n, env.bytesizeParse s = some n ∧ n ≤ 0) →
      ∃ e, parseFlagsFromArgs env usage args w = .fatal e := by
    intro hbad
    rcases parse_returned_or_fatal w hd hv with ⟨flags, w3, h⟩ | hf
    · obtain ⟨h1, h2⟩ := hret flags w3 h
      rcases hbad with hb | ⟨n, hn, hr⟩
      · rw [h1] at hb
        simp at hb
      · rw [h1] at hn
        have hnn : flags.TmpFile.Size = n := Option.some.inj hn
        omega
    · exact hf
  have honly : parseFlagsFromArgs env usage args w = .fatal (.option "--tmpfile-size" s) →
      (env.bytesizeParse s = none ∨ ∃ n, env.bytesizeParse s = some n ∧ n ≤ 0) :=
    fun h => (fatal_tmpfile_size_value hd hv h).2
  have hnamed : (∀ name raw,
      parseFlagsFromArgs env usage args w = .fatal (.option name raw) →
        name = "--tmpfile-size") →
      ∀ e, parseFlagsFromArgs env usage args w = .fatal e →
        parseFlagsFromArgs env usage args w = .fatal (.option "--tmpfile-size" s) := by
    intro hother e he
    obtain ⟨name, raw, hname, hraw, _⟩ := parse_fatal_name hd hv he
    subst hname
    have hn := hother name raw he
    subst hn
    rw [hsn] at hraw
    have hss : raw = s := (Option.some.inj hraw).symm
    subst hss
    exact he
  refine ⟨hfail, honly, ?_, ?_, ?_⟩
  · intro hother
    constructor
    · rintro ⟨e, he⟩
      exact honly (hnamed hother e he)
    · exact hfail
  · intro n hn hpos
    have hsize : ∀ flags w3, parseFlagsFromArgs env usage args w = .returned flags w3 →
        flags.TmpFile.Size = n := by
      intro flags w3 h
      have h1 := (hret flags w3 h).1
      rw [hn] at h1
      exact (Option.some.inj h1).symm
    refine ⟨hsize, ?_⟩
    intro hother
    rcases parse_returned_or_fatal w hd hv with ⟨flags, w3, h⟩ | ⟨e, he⟩
    · exact ⟨flags, w3, h, hsize flags w3 h⟩
    · rcases honly (hnamed hother e he) with hb | ⟨n1, hn1, hr⟩
      · rw [hn] at hb
        simp at hb
      · rw [hn] at hn1
        have hnn : n1 = n := (Option.some.inj hn1).symm
        omega
  · intro h0 hzero
    subst h0
    exact hfail (Or.inr ⟨0, hzero, by decide⟩)

/-- Worked input for C10: `--tmpfile=/tmp/x --tmpfile-size=1gb` returns with
the size 1073741824 read by the byte-size parser. -/
theorem tmpfile_size_validation_witness :
    (exampleEnv pathAndSizeArgs).docoptParse "" [] = some pathAndSizeArgs ∧
    pathAndSizeArgs "--version" = .bool false ∧
    pathAndSizeArgs "--tmpfile-size" = .str "1gb" ∧ ("1gb" : String) ≠ "" ∧
    (exampleEnv pathAndSizeArgs).bytesizeParse "1gb" = some 1073741824 ∧
    (∃ flags w3,
      parseFlagsFromArgs (exampleEnv pathAndSizeArgs) "" [] (World.initial 1) =
        .returned flags w3 ∧
      flags.TmpFile.Size = 1073741824) :=
  have hrun : parseFlagsFromArgs (exampleEnv pathAndSizeArgs) "" [] (World.initial 1) =
      .returned
        { Source := "", Target := "", Parallel := 16, AofPath := "",
          TmpFile := { Path := "/tmp/x", Size := 1073741824 }, ExpireOffset := 0 }
        { gomaxprocs := 4, acceptDB := .all, dbMap := [], acceptWrites := 0 } := by
    decide
  ⟨rfl, by decide, by decide, by decide, by decide, _, _, hrun,
    ((tmpfile_size_validation (exampleEnv pathAndSizeArgs) "" [] (World.initial 1)
      pathAndSizeArgs "1gb" rfl (by decide) (by decide) (by decide)).2.2.2.1 1073741824
      (by decide) (by decide)).1 _ _ hrun⟩

/-! ## C12: `--version` -/

/-- C12: whenever the option map is parsed and `--version` is true in it, the
call prints the version line and the build line and exits with status 0,
whatever the other options hold. -/
theorem version_exits_zero (env : Env) (usage : String) (args : List String) (w : World)
    (d : Args)
    (hd : env.docoptParse usage args = some d) (hver : d "--version" = .bool true) :
    parseFlagsFromArgs env usage args w =
      .exited 0 ["version: " ++ env.Version, "compile: " ++ env.Compile] := by
  simp only [parseFlagsFromArgs, hd, hver]

/-- Worked input for C12: with `--version --ncpu=0 --db=-1` the call exits
with status 0, while the same options without `--version` are fatal at
`--ncpu`. -/
theorem version_exits_zero_witness :
    (exampleEnv versionArgs).docoptParse "" [] = some versionArgs ∧
    versionArgs "--version" = .bool true ∧
    versionArgs "--ncpu" = .str "0" ∧ versionArgs "--db" = .str "-1" ∧
    parseFlagsFromArgs (exampleEnv noVersionArgs) "" [] (World.initial 1) =
      .fatal (.option "--ncpu" "0") ∧
    parseFlagsFromArgs (exampleEnv versionArgs) "" [] (World.initial 1) =
      .exited 0 ["version: 2.0", "compile: go"] :=
  ⟨rfl, by decide, by decide, by decide, by decide,
    version_exits_zero (exampleEnv versionArgs) "" [] (World.initial 1) versionArgs rfl
      (by decide)⟩

/-! ## C17: a spill path comes with a positive size -/

/-- C17: every `Flags` value the call returns has `TmpFile.Size > 0` whenever
`TmpFile.Path` is non-empty. -/
theorem tmpfile_path_has_size (env : Env) (usage : String) (args : List String) (w : World)
    (flags : Flags) (w3 : World)
    (h : parseFlagsFromArgs env usage args w = .returned flags w3)
    (hp : flags.TmpFile.Path ≠ "") :
    0 < flags.TmpFile.Size := by
  obtain ⟨d, _, _, _, _, hd, _, _, _, _, _, _, _⟩ := parse_returned_inv h
  obtain ⟨_, hsome, hnone⟩ := resolveTmpFile_ok (returned_tmpfile hd h)
  cases hs : (d "--tmpfile-size").nonEmptyString with
  | some s => exact (hsome s hs).2
  | none =>
    rw [hnone hs, if_pos hp]
    decide

/-- Worked input for C17: `--tmpfile=/tmp/x` returns a non-empty path with
the size 2147483648. -/
theorem tmpfile_path_has_size_witness :
    ∃ flags w3,
      parseFlagsFromArgs (exampleEnv pathOnlyArgs) "" [] (World.initial 1) =
        .returned flags w3 ∧
      flags.TmpFile.Path ≠ "" ∧ flags.TmpFile.Size = 2147483648 ∧
      0 < flags.TmpFile.Size :=
  have hrun : parseFlagsFromArgs (exampleEnv pathOnlyArgs) "" [] (World.initial 1) =
      .returned
        { Source := "", Target := "", Parallel := 16, AofPath := "",
          TmpFile := { Path := "/tmp/x", Size := 2147483648 }, ExpireOffset := 0 }
        { gomaxprocs := 4, acceptDB := .all, dbMap := [], acceptWrites := 0 } := by
    decide
  ⟨_, _, hrun, by decide, rfl,
    tmpfile_path_has_size (exampleEnv pathOnlyArgs) "" [] (World.initial 1) _ _ hrun
      (by decide)⟩

/-! ## C19: the heuristic is not monotone -/

theorem returned_parallel {env : Env} {usage : String} {args : List String} {w : World}
    {flags : Flags} {w3 : World}
    (h : parseFlagsFromArgs env usage args w = .returned flags w3) :
    flags.Parallel = parallelOf w3.gomaxprocs := by
  obtain ⟨d, w1, off, w2, tmp, _, _, _, _, h3, h4, _, hf⟩ := parse_returned_inv h
  rw [hf, resolveDBMap_gomaxprocs h4, (resolveDB_gomaxprocs h3).1]

theorem returned_gomaxprocs {env : Env} {usage : String} {args : List String} {w : World}
    {flags : Flags} {w3 : World}
    (h : parseFlagsFromArgs env usage args w = .returned flags w3)
    (hcpu : 1 ≤ env.NumCPU) :
    w3.gomaxprocs = env.NumCPU ∨ (1 ≤ w3.gomaxprocs ∧ w3.gomaxprocs ≤ 1024) := by
  obtain ⟨d, w1, off, w2, tmp, _, _, h1, _, h3, h4, _, _⟩ := parse_returned_inv h
  have hg : w3.gomaxprocs = w1.gomaxprocs := by
    rw [resolveDBMap_gomaxprocs h4, (resolveDB_gomaxprocs h3).1]
  rw [hg]
  rcases resolveNcpu_ok_cases h1 with ⟨_, hw1⟩ | ⟨s, n, _, _, hlo, hhi, hw1⟩
  · left
    have hn : ¬ env.NumCPU < 1 := by omega
    rw [hw1]
    simp [GOMAXPROCS, hn]
  · right
    rw [hw1]
    exact ⟨hlo, hhi⟩

/-- C19: the heuristic gives 32 at `ncpu = 8` and 18 at `ncpu = 9`; for every
`ncpu` from 9 to 15 the result is strictly below the result at 8; and for
every `ncpu >= 1` whose double is an `int` the result is at least 8 and at
least `2 * ncpu`.  The `Parallel` of a returning call is this heuristic at the
processor count in force, and when the runtime reports a processor count that
is a positive 32-bit value, every returning call has a count `ncpu >= 1` in
force with `Parallel >= 8` and `Parallel >= 2 * ncpu`. -/
theorem parallel_not_monotone :
    parallelOf 8 = 32 ∧ parallelOf 9 = 18 ∧
    (∀ ncpu : Int, 9 ≤ ncpu → ncpu ≤ 15 → parallelOf ncpu < parallelOf 8) ∧
    (∀ ncpu : Int, 1 ≤ ncpu → 2 * ncpu < 2 ^ 63 →
      8 ≤ parallelOf ncpu ∧ 2 * ncpu ≤ parallelOf ncpu) ∧
    (∀ (env : Env) (usage : String) (args : List String) (w : World) (flags : Flags)
      (w3 : World), parseFlagsFromArgs env usage args w = .returned flags w3 →
        flags.Parallel = parallelOf w3.gomaxprocs) ∧
    (∀ (env : Env) (usage : String) (args : List String) (w : World) (flags : Flags)
      (w3 : World), 1 ≤ env.NumCPU → env.NumCPU < 2 ^ 31 →
        parseFlagsFromArgs env usage args w = .returned flags w3 →
        1 ≤ w3.gomaxprocs ∧ 8 ≤ flags.Parallel ∧ 2 * w3.gomaxprocs ≤ flags.Parallel) := by
  have h8 : parallelOf 8 = 32 := by decide
  have hlow : ∀ ncpu : Int, 1 ≤ ncpu → 2 * ncpu < 2 ^ 63 →
      8 ≤ parallelOf ncpu ∧ 2 * ncpu ≤ parallelOf ncpu := by
    intro ncpu h1 hdouble
    unfold parallelOf
    by_cases hn1 : ncpu ≤ 1
    · simp only [hn1, if_true]
      omega
    · by_cases hn8 : ncpu ≤ 8
      · simp only [hn1, hn8, if_false, if_true]
        rw [wrapInt64_of_range (by omega) (by omega)]
        omega
      · simp only [hn1, hn8, if_false]
        rw [wrapInt64_of_range (by omega) (by omega)]
        omega
  refine ⟨h8, by decide, ?_, hlow,
    fun env usage args w flags w3 h => returned_parallel h, ?_⟩
  · intro ncpu h9 h15
    rw [h8]
    unfold parallelOf
    have hn1 : ¬ ncpu ≤ 1 := by omega
    have hn8 : ¬ ncpu ≤ 8 := by omega
    simp only [hn1, hn8, if_false]
    rw [wrapInt64_of_range (by omega) (by omega)]
    omega
  · intro env usage args w flags w3 hcpu hcpu32 h
    have hrange : 1 ≤ w3.gomaxprocs ∧ w3.gomaxprocs < 2 ^ 31 := by
      rcases returned_gomaxprocs h hcpu with hg | ⟨hlo, hhi⟩
      · rw [hg]
        exact ⟨hcpu, hcpu32⟩
      · constructor
        · exact hlo
        · norm_num
          omega
    rw [returned_parallel h]
    have hdouble : 2 * w3.gomaxprocs < 2 ^ 63 := by
      have h31 := hrange.2
      norm_num at h31 ⊢
      omega
    exact ⟨hrange.1, hlow _ hrange.1 hdouble⟩

/-- Worked input for C19: `--ncpu=8` returns `Parallel = 32`, `--ncpu=9`
returns `Parallel = 18`, which is smaller, at least 8 and at least 2 * 9. -/
theorem parallel_not_monotone_witness :
    (∃ flags w3,
      parseFlagsFromArgs (exampleEnv ncpuEightArgs) "" [] (World.initial 1) =
        .returned flags w3 ∧ w3.gomaxprocs = 8 ∧ flags.Parallel = 32) ∧
    (∃ flags w3,
      parseFlagsFromArgs (exampleEnv ncpuNineArgs) "" [] (World.initial 1) =
        .returned flags w3 ∧ w3.gomaxprocs = 9 ∧ flags.Parallel = 18 ∧
        flags.Parallel = parallelOf w3.gomaxprocs ∧
        (1 ≤ w3.gomaxprocs ∧ 8 ≤ flags.Parallel ∧ 2 * w3.gomaxprocs ≤ flags.Parallel)) ∧
    (9 : Int) ≤ 9 ∧ (9 : Int) ≤ 15 ∧ parallelOf 9 < parallelOf 8 ∧
    (1 : Int) ≤ 9 ∧ (2 : Int) * 9 < 2 ^ 63 ∧ 8 ≤ parallelOf 9 ∧ 2 * 9 ≤ parallelOf 9 :=
  have hrun8 : parseFlagsFromArgs (exampleEnv ncpuEightArgs) "" [] (World.initial 1) =
      .returned
        { Source := "", Target := "", Parallel := 32, AofPath := "",
          TmpFile := { Path := "", Size := 0 }, ExpireOffset := 0 }
        { gomaxprocs := 8, acceptDB := .all, dbMap := [], acceptWrites := 0 } := by
    decide
  have hrun9 : parseFlagsFromArgs (exampleEnv ncpuNineArgs) "" [] (World.initial 1) =
      .returned
        { Source := "", Target := "", Parallel := 18, AofPath := "",
          TmpFile := { Path := "", Size := 0 }, ExpireOffset := 0 }
        { gomaxprocs := 9, acceptDB := .all, dbMap := [], acceptWrites := 0 } := by
    decide
  ⟨⟨_, _, hrun8, rfl, rfl⟩,
    ⟨_, _, hrun9, rfl, rfl, parallel_not_monotone.2.2.2.2.1 _ _ _ _ _ _ hrun9,
      parallel_not_monotone.2.2.2.2.2 (exampleEnv ncpuNineArgs) _ _ _ _ _ (by decide)
        (by decide) hrun9⟩,
    by decide, by decide, parallel_not_monotone.2.2.1 9 (by decide) (by decide),
    by decide, by decide,
    (parallel_not_monotone.2.2.2.1 9 (by decide) (by decide)).1,
    (parallel_not_monotone.2.2.2.1 9 (by decide) (by decide)).2⟩

/-! ## C16: how often `acceptDB` is written -/

/-- C16, as stated, fails: with `--db=5 --dbmap=1:1` the call returns after
two assignments to `acceptDB`, starting from a state with none. -/
theorem accept_written_twice_counterexample :
    (World.initial 1).acceptWrites = 0 ∧
    parseFlagsFromArgs (exampleEnv dbAndDbmapArgs) "" [] (World.initial 1) =
      .returned
        { Source := "", Target := "", Parallel := 16, AofPath := "",
          TmpFile := { Path := "", Size := 0 }, ExpireOffset := 0 }
        { gomaxprocs := 4, acceptDB := .inDbMap, dbMap := [(1, 1)], acceptWrites := 2 } := by
  decide

/-- C16, amended: a returning call assigns `acceptDB` once for a non-empty
`--db` value other than `*` and once for a non-empty `--dbmap` value: at most
twice in all, at most once when one of the two options is not supplied in that
way, and exactly twice when both are. -/
theorem accept_writes_count (env : Env) (usage : String) (args : List String) (w : World)
    (d : Args) (flags : Flags) (w3 : World)
    (hd : env.docoptParse usage args = some d)
    (h : parseFlagsFromArgs env usage args w = .returned flags w3) :
    w3.acceptWrites = w.acceptWrites + writesForDb d + writesForDbmap d ∧
    w3.acceptWrites ≤ w.acceptWrites + 2 ∧
    ((writesForDb d = 0 ∨ writesForDbmap d = 0) → w3.acceptWrites ≤ w.acceptWrites + 1) ∧
    ((writesForDb d = 1 ∧ writesForDbmap d = 1) → w3.acceptWrites = w.acceptWrites + 2) := by
  obtain ⟨d1, w1, off, w2, tmp, hd1, _, h1, _, h3, h4, _, _⟩ := parse_returned_inv h
  have hdd := docopt_unique hd hd1
  subst hdd
  have hw1 : w1.acceptWrites = w.acceptWrites := (resolveNcpu_dbMap h1).2.2
  have hw2 : w2.acceptWrites = w1.acceptWrites + writesForDb d1 := by
    unfold writesForDb
    rcases resolveDB_ok_cases h3 with ⟨hdb, hw2⟩ | ⟨s, n, hs, hstar, _, _, hw2⟩
    · subst hw2
      rcases hdb with hdb | hdb
      · simp [hdb]
      · simp [hdb]
    · subst hw2
      simp [hs, hstar, World.setAcceptDB]
  have hw3 : w3.acceptWrites = w2.acceptWrites + writesForDbmap d1 := by
    unfold writesForDbmap
    rcases resolveDBMap_ok_cases h4 with ⟨hnone, hw3⟩ | ⟨s, tbl, hs, _, hw3⟩
    · subst hw3
      simp [hnone]
    · subst hw3
      simp [hs, World.setAcceptDB]
  have hdb1 : writesForDb d1 ≤ 1 := by
    unfold writesForDb
    split
    · split <;> omega
    · omega
  have hmap1 : writesForDbmap d1 ≤ 1 := by
    unfold writesForDbmap
    split <;> omega
  have htotal : w3.acceptWrites = w.acceptWrites + writesForDb d1 + writesForDbmap d1 := by
    rw [hw3, hw2, hw1]
  refine ⟨htotal, by omega, ?_, ?_⟩
  · intro hzero
    omega
  · intro hboth
    omega

/-- Worked input for C16: `--db=3` alone returns after one assignment. -/
theorem accept_writes_count_witness :
    (exampleEnv dbThreeArgs).docoptParse "" [] = some dbThreeArgs ∧
    writesForDb dbThreeArgs = 1 ∧ writesForDbmap dbThreeArgs = 0 ∧
    (∃ flags w3,
      parseFlagsFromArgs (exampleEnv dbThreeArgs) "" [] (World.initial 1) =
        .returned flags w3 ∧
      w3.acceptWrites = 1 ∧
      w3.acceptWrites =
        (World.initial 1).acceptWrites + writesForDb dbThreeArgs
          + writesForDbmap dbThreeArgs) :=
  have hrun : parseFlagsFromArgs (exampleEnv dbThreeArgs) "" [] (World.initial 1) =
      .returned
        { Source := "", Target := "", Parallel := 16, AofPath := "",
          TmpFile := { Path := "", Size := 0 }, ExpireOffset := 0 }
        { gomaxprocs := 4, acceptDB := .equals 3, dbMap := [], acceptWrites := 1 } := by
    decide
  ⟨rfl, by decide, by decide, _, _, hrun, rfl,
    (accept_writes_count (exampleEnv dbThreeArgs) "" [] (World.initial 1) dbThreeArgs _ _
      rfl hrun).1⟩

/-! ## C14, C15: failing and empty `--dbmap` lists -/

theorem malformedPair_iff (m : String) :
    malformedPair m = true ↔ (hasTwoFields m = true ∧ wellFormedPair m = none) := by
  unfold malformedPair hasTwoFields wellFormedPair badField
  rcases hs : Split m ':' with _ | ⟨a, _ | ⟨b, _ | ⟨c, r⟩⟩⟩
  · simp
  · simp
  · cases ha : Atoi a with
    | none => simp [ha]
    | some x =>
      cases hb : Atoi b with
      | none => simp [ha, hb]
      | some y =>
        simp only [ha, hb, List.length_cons, List.length_nil, Bool.or_eq_true,
          decide_eq_true_eq]
        constructor
        · intro hbad
          refine ⟨by decide, ?_⟩
          have hneg : ¬ (0 ≤ x ∧ 0 ≤ y) := by omega
          simp [hneg]
        · rintro ⟨_, hnone⟩
          by_cases hpos : 0 ≤ x ∧ 0 ≤ y
          · simp [hpos] at hnone
          · omega
  · simp

theorem wellFormedPair_of_not_two {m : String} (h : hasTwoFields m = false) :
    wellFormedPair m = none := by
  unfold hasTwoFields at h
  unfold wellFormedPair
  rcases hs : Split m ':' with _ | ⟨a, _ | ⟨b, _ | ⟨c, r⟩⟩⟩
  · rfl
  · rfl
  · simp [hs] at h
  · rfl

theorem dbmapEntry_of_not_two (raw : String) {m : String} (tbl : GoMap)
    (h : hasTwoFields m = false) : dbmapEntry raw m tbl = .ok tbl := by
  unfold hasTwoFields at h
  unfold dbmapEntry
  rcases hs : Split m ':' with _ | ⟨a, _ | ⟨b, _ | ⟨c, r⟩⟩⟩
  · rfl
  · rfl
  · simp [hs] at h
  · rfl

theorem dbmapEntry_of_malformed (raw : String) {m : String} (tbl : GoMap)
    (h : malformedPair m = true) : dbmapEntry raw m tbl = .error (.option "--dbmap" raw) := by
  cases he : dbmapEntry raw m tbl with
  | error e => rw [(dbmapEntry_error he).1]
  | ok t1 =>
    have h1 := dbmapEntry_ok he
    obtain ⟨htwo, hnone⟩ := (malformedPair_iff m).mp h
    unfold dbmapEntry at he
    unfold hasTwoFields at htwo
    unfold wellFormedPair at hnone
    rcases hs : Split m ':' with _ | ⟨a, _ | ⟨b, _ | ⟨c, r⟩⟩⟩
    · simp [hs] at htwo
    · simp [hs] at htwo
    · simp only [hs] at he hnone
      cases ha : Atoi a with
      | none => simp [ha] at he
      | some x =>
        simp only [ha] at he hnone
        by_cases hx : x < 0
        · simp [hx] at he
        · simp only [hx, if_false] at he
          cases hb : Atoi b with
          | none => simp [hb] at he
          | some y =>
            simp only [hb] at he hnone
            by_cases hy : y < 0
            · simp [hy] at he
            · have hpos : 0 ≤ x ∧ 0 ≤ y := by omega
              simp [hpos] at hnone
    · simp [hs] at htwo

theorem dbmapLoop_of_malformed (raw : String) {ms : List String} (tbl : GoMap)
    (h : ∃ m ∈ ms, malformedPair m = true) :
    dbmapLoop raw ms tbl = .error (.option "--dbmap" raw) := by
  induction ms generalizing tbl with
  | nil =>
    obtain ⟨m, hm, _⟩ := h
    simp at hm
  | cons m0 ms ih =>
    unfold dbmapLoop
    cases he : dbmapEntry raw m0 tbl with
    | error e => rw [(dbmapEntry_error he).1]
    | ok t1 =>
      simp only
      obtain ⟨m, hm, hbad⟩ := h
      rcases List.mem_cons.mp hm with hm0 | hms
      · subst hm0
        rw [dbmapEntry_of_malformed raw tbl hbad] at he
        simp at he
      · exact ih t1 ⟨m, hms, hbad⟩

theorem resolveDBMap_of_malformed {d : Args} {s : String} (w : World)
    (hs : (d "--dbmap").nonEmptyString = some s)
    (h : ∃ m ∈ Split s ',', malformedPair m = true) :
    resolveDBMap d w = .error (.option "--dbmap" s) := by
  unfold resolveDBMap
  simp only [hs, dbmapLoop_nil_guard]
  rw [dbmapLoop_of_malformed s w.dbMap h]

/-- C14: for a non-empty `--dbmap` value `s` (option map parsed, `--version`
false): a failure naming `--dbmap` occurs only if some entry splits on `:`
into exactly two fields of which one does not parse as an integer or is
negative; such an entry always makes the call fatal; so if no other option
fails, the call fails exactly when such an entry exists, with the diagnostic
for `--dbmap`.  An entry with another number of fields is passed over by the
loop and is never such an entry. -/
theorem dbmap_failure_iff (env : Env) (usage : String) (args : List String) (w : World)
    (d : Args) (s : String)
    (hd : env.docoptParse usage args = some d) (hv : d "--version" = .bool false)
    (hs : d "--dbmap" = .str s) (hne : s ≠ "") :
    (parseFlagsFromArgs env usage args w = .fatal (.option "--dbmap" s) →
      ∃ m ∈ Split s ',', malformedPair m = true) ∧
    ((∃ m ∈ Split s ',', malformedPair m = true) →
      ∃ e, parseFlagsFromArgs env usage args w = .fatal e) ∧
    ((∀ name raw, parseFlagsFromArgs env usage args w = .fatal (.option name raw) →
        name = "--dbmap") →
      (((∃ e, parseFlagsFromArgs env usage args w = .fatal e) ↔
          ∃ m ∈ Split s ',', malformedPair m = true) ∧
        ((∃ m ∈ Split s ',', malformedPair m = true) →
          parseFlagsFromArgs env usage args w = .fatal (.option "--dbmap" s)) ∧
        ((∀ m ∈ Split s ',', malformedPair m = false) →
          ∃ flags w3, parseFlagsFromArgs env usage args w = .returned flags w3))) ∧
    (∀ m ∈ Split s ',', hasTwoFields m = false →
      malformedPair m = false ∧ ∀ tbl, dbmapEntry s m tbl = .ok tbl) := by
  have hsn := nonEmptyString_str hs hne
  have honly : parseFlagsFromArgs env usage args w = .fatal (.option "--dbmap" s) →
      ∃ m ∈ Split s ',', malformedPair m = true := by
    intro h
    obtain ⟨_, m, hm, h2, h3⟩ := fatal_dbmap_entry hd hv hsn h
    exact ⟨m, hm, (malformedPair_iff m).mpr ⟨h2, h3⟩⟩
  have hfail : (∃ m ∈ Split s ',', malformedPair m = true) →
      ∃ e, parseFlagsFromArgs env usage args w = .fatal e := by
    intro hbad
    rcases parse_returned_or_fatal w hd hv with ⟨flags, w3, h⟩ | hf
    · obtain ⟨d1, w1, off, w2, tmp, hd1, _, _, _, _, h4, _, _⟩ := parse_returned_inv h
      have hdd := docopt_unique hd hd1
      subst hdd
      rw [resolveDBMap_of_malformed w2 hsn hbad] at h4
      simp at h4
    · exact hf
  have hnamed : (∀ name raw,
      parseFlagsFromArgs env usage args w = .fatal (.option name raw) → name = "--dbmap") →
      ∀ e, parseFlagsFromArgs env usage args w = .fatal e →
        parseFlagsFromArgs env usage args w = .fatal (.option "--dbmap" s) := by
    intro hother e he
    obtain ⟨name, raw, hname, hraw, _⟩ := parse_fatal_name hd hv he
    subst hname
    have hn := hother name raw he
    subst hn
    rw [hsn] at hraw
    have hss : raw = s := (Option.some.inj hraw).symm
    subst hss
    exact he
  refine ⟨honly, hfail, ?_, ?_⟩
  · intro hother
    refine ⟨⟨?_, hfail⟩, ?_, ?_⟩
    · rintro ⟨e, he⟩
      exact honly (hnamed hother e he)
    · intro hbad
      obtain ⟨e, he⟩ := hfail hbad
      exact hnamed hother e he
    · intro hgood
      rcases parse_returned_or_fatal w hd hv with hret | ⟨e, he⟩
      · exact hret
      · obtain ⟨m, hm, hbad⟩ := honly (hnamed hother e he)
        rw [hgood m hm] at hbad
        simp at hbad
  · intro m _ htwo
    refine ⟨?_, fun tbl => dbmapEntry_of_not_two s tbl htwo⟩
    cases hmal : malformedPair m with
    | false => rfl
    | true =>
      have h2 := ((malformedPair_iff m).mp hmal).1
      rw [htwo] at h2
      simp at h2

/-- Worked input for C14: `--dbmap=0:1,2:x` is fatal at `--dbmap`; its second
entry has two fields and the second one is not an integer. -/
theorem dbmap_failure_iff_witness :
    (exampleEnv dbmapBadArgs).docoptParse "" [] = some dbmapBadArgs ∧
    dbmapBadArgs "--version" = .bool false ∧
    dbmapBadArgs "--dbmap" = .str "0:1,2:x" ∧ ("0:1,2:x" : String) ≠ "" ∧
    Split "0:1,2:x" ',' = ["0:1", "2:x"] ∧
    malformedPair "0:1" = false ∧ malformedPair "2:x" = true ∧
    parseFlagsFromArgs (exampleEnv dbmapBadArgs) "" [] (World.initial 1) =
      .fatal (.option "--dbmap" "0:1,2:x") ∧
    ∃ m ∈ Split "0:1,2:x" ',', malformedPair m = true :=
  have hrun : parseFlagsFromArgs (exampleEnv dbmapBadArgs) "" [] (World.initial 1) =
      .fatal (.option "--dbmap" "0:1,2:x") := by decide
  ⟨rfl, by decide, by decide, by decide, by decide, by decide, by decide, hrun,
    (dbmap_failure_iff (exampleEnv dbmapBadArgs) "" [] (World.initial 1) dbmapBadArgs
      "0:1,2:x" rfl (by decide) (by decide) (by decide)).1 hrun⟩

theorem wellFormedPairs_of_no_two {s : String}
    (h : ∀ m ∈ Split s ',', hasTwoFields m = false) : wellFormedPairs s = [] := by
  unfold wellFormedPairs
  rw [List.filterMap_eq_nil_iff]
  intro m hm
  exact wellFormedPair_of_not_two (h m hm)

/-- C15: for a non-empty `--dbmap` value none of whose entries has exactly two
fields (option map parsed, `--version` false, table initially empty), whatever
`--db` holds: every returning call leaves the table empty and the predicate
replaced by the table test, which rejects every database id; no failure names
`--dbmap`; and the call returns when no other option fails. -/
theorem dbmap_without_pairs (env : Env) (usage : String) (args : List String) (w : World)
    (d : Args) (s : String)
    (hd : env.docoptParse usage args = some d) (hv : d "--version" = .bool false)
    (hs : d "--dbmap" = .str s) (hne : s ≠ "") (hw : w.dbMap = [])
    (hnone : ∀ m ∈ Split s ',', hasTwoFields m = false) :
    (∀ flags w3, parseFlagsFromArgs env usage args w = .returned flags w3 →
      w3.dbMap = [] ∧ w3.acceptDB = .inDbMap ∧ ∀ db, w3.accepts db = false) ∧
    (∀ raw, parseFlagsFromArgs env usage args w ≠ .fatal (.option "--dbmap" raw)) ∧
    ((∀ name raw, parseFlagsFromArgs env usage args w = .fatal (.option name raw) →
        name = "--dbmap") →
      ∃ flags w3, parseFlagsFromArgs env usage args w = .returned flags w3 ∧
        w3.dbMap = [] ∧ ∀ db, w3.accepts db = false) := by
  have hsn := nonEmptyString_str hs hne
  have hret : ∀ flags w3, parseFlagsFromArgs env usage args w = .returned flags w3 →
      w3.dbMap = [] ∧ w3.acceptDB = .inDbMap ∧ ∀ db, w3.accepts db = false := by
    intro flags w3 h
    obtain ⟨htbl, hacc⟩ := returned_dbmap_state hd hsn hw h
    rw [wellFormedPairs_of_no_two hnone] at htbl
    have hempty : w3.dbMap = [] := htbl
    refine ⟨hempty, hacc, fun db => ?_⟩
    simp [World.accepts, hacc, hempty, GoMap.contains, GoMap.get?]
  have hnofatal : ∀ raw,
      parseFlagsFromArgs env usage args w ≠ .fatal (.option "--dbmap" raw) := by
    intro raw h
    obtain ⟨_, m, hm, h2, _⟩ := fatal_dbmap_entry hd hv hsn h
    rw [hnone m hm] at h2
    simp at h2
  refine ⟨hret, hnofatal, ?_⟩
  intro hother
  rcases parse_returned_or_fatal w hd hv with ⟨flags, w3, h⟩ | ⟨e, he⟩
  · obtain ⟨h1, _, h3⟩ := hret flags w3 h
    exact ⟨flags, w3, h, h1, h3⟩
  · obtain ⟨name, raw, hname, _, _⟩ := parse_fatal_name hd hv he
    subst hname
    have hn := hother name raw he
    subst hn
    exact absurd he (hnofatal raw)

/-- Worked input for C15: with `--db=5 --dbmap=garbage` the call returns with
an empty table and a predicate that rejects database 5 and every other id. -/
theorem dbmap_without_pairs_witness :
    (exampleEnv dbAndGarbageArgs).docoptParse "" [] = some dbAndGarbageArgs ∧
    dbAndGarbageArgs "--version" = .bool false ∧
    dbAndGarbageArgs "--db" = .str "5" ∧
    dbAndGarbageArgs "--dbmap" = .str "garbage" ∧ ("garbage" : String) ≠ "" ∧
    (World.initial 1).dbMap = [] ∧
    (∀ m ∈ Split "garbage" ',', hasTwoFields m = false) ∧
    (∀ m ∈ Split "," ',', hasTwoFields m = false) ∧
    (∃ flags w3,
      parseFlagsFromArgs (exampleEnv dbAndGarbageArgs) "" [] (World.initial 1) =
        .returned flags w3 ∧
      w3.dbMap = [] ∧ w3.acceptDB = .inDbMap ∧ w3.accepts 5 = false ∧
      ∀ db, w3.accepts db = false) :=
  have hrun : parseFlagsFromArgs (exampleEnv dbAndGarbageArgs) "" [] (World.initial 1) =
      .returned
        { Source := "", Target := "", Parallel := 16, AofPath := "",
          TmpFile := { Path := "", Size := 0 }, ExpireOffset := 0 }
        { gomaxprocs := 4, acceptDB := .inDbMap, dbMap := [], acceptWrites := 2 } := by
    decide
  have hgarbage : ∀ m ∈ Split "garbage" ',', hasTwoFields m = false := by decide
  ⟨rfl, by decide, by decide, by decide, by decide, rfl, hgarbage, by decide, _, _, hrun,
    rfl, rfl, by decide,
    ((dbmap_without_pairs (exampleEnv dbAndGarbageArgs) "" [] (World.initial 1)
      dbAndGarbageArgs "garbage" rfl (by decide) (by decide) (by decide) rfl hgarbage).1
      _ _ hrun).2.2⟩

/-! ## C18: a repeated source id -/

theorem get?_insertAll (ps : List (Nat × Nat)) (t : GoMap) (k : Nat) :
    (GoMap.insertAll t ps).get? k = (lastTarget ps k).or (t.get? k) := by
  induction ps generalizing t with
  | nil => simp [GoMap.insertAll, lastTarget]
  | cons p ps ih =>
    obtain ⟨a, b⟩ := p
    rw [insertAll_cons, ih, get?_insert]
    unfold lastTarget
    rw [List.reverse_cons, List.lookup_append]
    cases List.lookup k ps.reverse with
    | some v => rfl
    | none =>
      by_cases hk : k = a
      · simp [hk, List.lookup_cons]
      · have hkb : (k == a) = false := by
          simp only [beq_eq_false_iff_ne, ne_eq]
          exact hk
        simp [hk, List.lookup_cons, hkb]

theorem mem_keys_iff_contains (m : GoMap) (k : Nat) :
    k ∈ m.keys ↔ m.contains k = true := by
  unfold GoMap.keys GoMap.contains GoMap.get?
  induction m with
  | nil => simp
  | cons p ps ih =>
    obtain ⟨a, b⟩ := p
    by_cases hka : k = a
    · simp [hka, List.lookup_cons]
    · have hkb : (k == a) = false := by
        simp only [beq_eq_false_iff_ne, ne_eq]
        exact hka
      simp only [List.map_cons, List.mem_cons, hka, false_or, List.lookup_cons, hkb]
      exact ih

theorem keys_nodup_insert (m : GoMap) (k v : Nat) (h : m.keys.Nodup) :
    (m.insert k v).keys.Nodup := by
  unfold GoMap.keys GoMap.insert at *
  rw [List.map_cons, List.nodup_cons]
  constructor
  · intro hmem
    obtain ⟨p, hp, hpk⟩ := List.mem_map.mp hmem
    have hne := (List.mem_filter.mp hp).2
    simp only [bne_iff_ne, ne_eq] at hne
    exact hne hpk
  · exact (List.filter_sublist m).map Prod.fst |>.nodup h

theorem keys_nodup_insertAll (ps : List (Nat × Nat)) (m : GoMap) (h : m.keys.Nodup) :
    (GoMap.insertAll m ps).keys.Nodup := by
  induction ps generalizing m with
  | nil => exact h
  | cons p ps ih =>
    rw [insertAll_cons]
    exact ih _ (keys_nodup_insert m p.1 p.2 h)

/-- C18: for a non-empty `--dbmap` value and an initially empty table, a
returning call leaves a table that maps every source id to the target of the
last well-formed entry with that source, in list order; the table binds each
key once, its keys are exactly the source ids of the well-formed entries, and
it has as many bindings as there are distinct source ids. -/
theorem dbmap_last_entry_wins (env : Env) (usage : String) (args : List String) (w : World)
    (d : Args) (s : String) (flags : Flags) (w3 : World)
    (hd : env.docoptParse usage args = some d)
    (hs : d "--dbmap" = .str s) (hne : s ≠ "") (hw : w.dbMap = [])
    (h : parseFlagsFromArgs env usage args w = .returned flags w3) :
    (∀ k, w3.dbMap.get? k = lastTarget (wellFormedPairs s) k) ∧
    w3.dbMap.keys.Nodup ∧
    (∀ k, k ∈ w3.dbMap.keys ↔ k ∈ (wellFormedPairs s).map Prod.fst) ∧
    w3.dbMap.length = ((wellFormedPairs s).map Prod.fst).dedup.length := by
  obtain ⟨htbl, _⟩ := returned_dbmap_state hd (nonEmptyString_str hs hne) hw h
  have hget : ∀ k, w3.dbMap.get? k = lastTarget (wellFormedPairs s) k := by
    intro k
    rw [htbl, get?_insertAll]
    simp [GoMap.get?]
  have hnodup : w3.dbMap.keys.Nodup := by
    rw [htbl]
    exact keys_nodup_insertAll _ [] List.nodup_nil
  have hkeys : ∀ k, k ∈ w3.dbMap.keys ↔ k ∈ (wellFormedPairs s).map Prod.fst := by
    intro k
    rw [mem_keys_iff_contains, htbl, foldl_insert_contains]
    simp [GoMap.contains, GoMap.get?]
  refine ⟨hget, hnodup, hkeys, ?_⟩
  have hperm : w3.dbMap.keys.Perm ((wellFormedPairs s).map Prod.fst).dedup := by
    rw [List.perm_ext_iff_of_nodup hnodup (List.nodup_dedup _)]
    intro k
    rw [hkeys, List.mem_dedup]
  have hlen := hperm.length_eq
  unfold GoMap.keys at hlen
  rw [List.length_map] at hlen
  exact hlen

/-- Worked input for C18: `--dbmap=0:1,0:2` leaves the table 0 -> 2, with one
binding. -/
theorem dbmap_last_entry_wins_witness :
    (exampleEnv dbmapRepeatArgs).docoptParse "" [] = some dbmapRepeatArgs ∧
    dbmapRepeatArgs "--dbmap" = .str "0:1,0:2" ∧ ("0:1,0:2" : String) ≠ "" ∧
    (World.initial 1).dbMap = [] ∧
    wellFormedPairs "0:1,0:2" = [(0, 1), (0, 2)] ∧
    lastTarget (wellFormedPairs "0:1,0:2") 0 = some 2 ∧
    (∃ flags w3,
      parseFlagsFromArgs (exampleEnv dbmapRepeatArgs) "" [] (World.initial 1) =
        .returned flags w3 ∧
      w3.dbMap = [(0, 2)] ∧ w3.dbMap.length = 1 ∧
      ∀ k, w3.dbMap.get? k = lastTarget (wellFormedPairs "0:1,0:2") k) :=
  have hrun : parseFlagsFromArgs (exampleEnv dbmapRepeatArgs) "" [] (World.initial 1) =
      .returned
        { Source := "", Target := "", Parallel := 16, AofPath := "",
          TmpFile := { Path := "", Size := 0 }, ExpireOffset := 0 }
        { gomaxprocs := 4, acceptDB := .inDbMap, dbMap := [(0, 2)], acceptWrites := 1 } := by
    decide
  ⟨rfl, by decide, by decide, rfl, by decide, by decide, _, _, hrun, rfl, rfl,
    (dbmap_last_entry_wins (exampleEnv dbmapRepeatArgs) "" [] (World.initial 1)
      dbmapRepeatArgs "0:1,0:2" _ _ rfl (by decide) (by decide) rfl hrun).1⟩

/-! ## C13: the parser for `--unixtime-in-milliseconds` -/

theorem resolveExpireOffset_of_fails {env : Env} {d : Args} {s : String}
    (hs : (d "--unixtime-in-milliseconds").nonEmptyString = some s)
    (h : chosenParserFails env s = true) :
    resolveExpireOffset env d = .error (.option "--unixtime-in-milliseconds" s) := by
  unfold chosenParserFails at h
  unfold resolveExpireOffset
  simp only [hs]
  rcases hdata : s.data with _ | ⟨c, rest⟩
  · simp [hdata] at h
  · simp only [hdata] at h ⊢
    by_cases hsign : c = '-' ∨ c = '+'
    · have hsign2 : c = '+' ∨ c = '-' := hsign.symm
      simp only [hsign, hsign2, if_true] at h ⊢
      cases hp : env.ParseDuration (env.ToLower s) with
      | none => rfl
      | some dur => simp [hp] at h
    · have hsign2 : ¬ (c = '+' ∨ c = '-') := fun hc => hsign hc.symm
      simp only [hsign, hsign2, if_false] at h ⊢
      by_cases hat : c = '@'
      · simp only [hat, if_true] at h ⊢
        cases hp : ParseInt (String.mk rest) with
        | none => rfl
        | some n => simp [hp] at h
      · simp only [hat, if_false] at h ⊢
        cases hp : env.timeParse "2006-01-02 15:04:05" s with
        | none => rfl
        | some t => simp [hp] at h

theorem resolveExpireOffset_of_passes {env : Env} {d : Args} {s : String}
    (hs : (d "--unixtime-in-milliseconds").nonEmptyString = some s)
    (h : chosenParserFails env s = false) :
    ∃ off, resolveExpireOffset env d = .ok off := by
  cases hr : resolveExpireOffset env d with
  | ok off => exact ⟨off, rfl⟩
  | error e =>
    exfalso
    unfold chosenParserFails at h
    unfold resolveExpireOffset at hr
    simp only [hs] at hr
    rcases hdata : s.data with _ | ⟨c, rest⟩
    · simp [hdata] at hr
    · simp only [hdata] at h hr
      by_cases hsign : c = '-' ∨ c = '+'
      · have hsign2 : c = '+' ∨ c = '-' := hsign.symm
        simp only [hsign, hsign2, if_true] at h hr
        cases hp : env.ParseDuration (env.ToLower s) with
        | none => simp [hp] at h
        | some dur => simp [hp] at hr
      · have hsign2 : ¬ (c = '+' ∨ c = '-') := fun hc => hsign hc.symm
        simp only [hsign, hsign2, if_false] at h hr
        by_cases hat : c = '@'
        · simp only [hat, if_true] at h hr
          cases hp : ParseInt (String.mk rest) with
          | none => simp [hp] at h
          | some n => simp [hp] at hr
        · simp only [hat, if_false] at h hr
          cases hp : env.timeParse "2006-01-02 15:04:05" s with
          | none => simp [hp] at h
          | some t => simp [hp] at hr

/-- A fatal outcome that names `--unixtime-in-milliseconds` is the failure of
the expire-offset step. -/
theorem fatal_unixtime_value {env : Env} {usage : String} {args : List String} {w : World}
    {d : Args} {raw : String}
    (hd : env.docoptParse usage args = some d) (hv : d "--version" = .bool false)
    (h : parseFlagsFromArgs env usage args w =
      .fatal (.option "--unixtime-in-milliseconds" raw)) :
    (d "--unixtime-in-milliseconds").nonEmptyString = some raw ∧
      resolveExpireOffset env d = .error (.option "--unixtime-in-milliseconds" raw) := by
  rcases parse_fatal_inv hd hv h with h1 | h1 | ⟨w1, _, h1⟩ | ⟨w2, h1⟩ | h1
  · obtain ⟨s1, _, he, _⟩ := resolveNcpu_error h1
    simp at he
  · obtain ⟨s1, hs1, he⟩ := resolveExpireOffset_error h1
    simp only [Fatal.option.injEq, true_and] at he
    subst he
    exact ⟨hs1, h1⟩
  · obtain ⟨s1, _, _, he, _⟩ := resolveDB_error h1
    simp at he
  · obtain ⟨s1, _, he, _⟩ := resolveDBMap_error h1
    simp at he
  · obtain ⟨s1, _, he, _⟩ := resolveTmpFile_error h1
    simp at he

theorem returned_expire {env : Env} {usage : String} {args : List String} {w : World}
    {d : Args} {flags : Flags} {w3 : World}
    (hd : env.docoptParse usage args = some d)
    (h : parseFlagsFromArgs env usage args w = .returned flags w3) :
    resolveExpireOffset env d = .ok flags.ExpireOffset := by
  obtain ⟨d1, w1, off, w2, tmp, hd1, _, _, h2, _, _, _, hf⟩ := parse_returned_inv h
  have hdd := docopt_unique hd hd1
  subst hdd
  rw [hf]
  exact h2

/-- C13: with the option map parsed and `--version` false.  For a non-empty
value `s` of `--unixtime-in-milliseconds`: a failure naming the option occurs
only if the parser selected by the first character of `s` rejects its input;
if that parser rejects, the call is fatal; so if no other option fails, the
call fails exactly when the selected parser fails and returns otherwise.  When
the option is absent or empty, a returning call has `ExpireOffset = 0` and no
failure names the option.  The value "1h" selects the date-time parser, so it
fails as soon as that parser rejects "1h", whatever the duration parser
would make of it. -/
theorem expire_offset_dispatch (env : Env) (usage : String) (args : List String) (w : World)
    (d : Args)
    (hd : env.docoptParse usage args = some d) (hv : d "--version" = .bool false) :
    (∀ s, d "--unixtime-in-milliseconds" = .str s → s ≠ "" →
      (parseFlagsFromArgs env usage args w =
          .fatal (.option "--unixtime-in-milliseconds" s) →
        chosenParserFails env s = true) ∧
      (chosenParserFails env s = true →
        ∃ e, parseFlagsFromArgs env usage args w = .fatal e) ∧
      ((∀ name raw, parseFlagsFromArgs env usage args w = .fatal (.option name raw) →
          name = "--unixtime-in-milliseconds") →
        (((∃ e, parseFlagsFromArgs env usage args w = .fatal e) ↔
            chosenParserFails env s = true) ∧
          (chosenParserFails env s = true →
            parseFlagsFromArgs env usage args w =
              .fatal (.option "--unixtime-in-milliseconds" s)) ∧
          (chosenParserFails env s = false →
            ∃ flags w3, parseFlagsFromArgs env usage args w = .returned flags w3)))) ∧
    ((d "--unixtime-in-milliseconds").nonEmptyString = none →
      (∀ flags w3, parseFlagsFromArgs env usage args w = .returned flags w3 →
        flags.ExpireOffset = 0) ∧
      (∀ raw, parseFlagsFromArgs env usage args w ≠
        .fatal (.option "--unixtime-in-milliseconds" raw))) ∧
    (d "--unixtime-in-milliseconds" = .str "1h" →
      chosenParserFails env "1h" = (env.timeParse "2006-01-02 15:04:05" "1h").isNone ∧
      (env.timeParse "2006-01-02 15:04:05" "1h" = none →
        ∃ e, parseFlagsFromArgs env usage args w = .fatal e)) := by
  have hmain : ∀ s, d "--unixtime-in-milliseconds" = .str s → s ≠ "" →
      (parseFlagsFromArgs env usage args w =
          .fatal (.option "--unixtime-in-milliseconds" s) →
        chosenParserFails env s = true) ∧
      (chosenParserFails env s = true →
        ∃ e, parseFlagsFromArgs env usage args w = .fatal e) ∧
      ((∀ name raw, parseFlagsFromArgs env usage args w = .fatal (.option name raw) →
          name = "--unixtime-in-milliseconds") →
        (((∃ e, parseFlagsFromArgs env usage args w = .fatal e) ↔
            chosenParserFails env s = true) ∧
          (chosenParserFails env s = true →
            parseFlagsFromArgs env usage args w =
              .fatal (.option "--unixtime-in-milliseconds" s)) ∧
          (chosenParserFails env s = false →
            ∃ flags w3, parseFlagsFromArgs env usage args w = .returned flags w3))) := by
    intro s hs hne
    have hsn := nonEmptyString_str hs hne
    have honly : parseFlagsFromArgs env usage args w =
        .fatal (.option "--unixtime-in-milliseconds" s) →
        chosenParserFails env s = true := by
      intro h
      have herr := (fatal_unixtime_value hd hv h).2
      cases hc : chosenParserFails env s with
      | true => rfl
      | false =>
        obtain ⟨off, hok⟩ := resolveExpireOffset_of_passes hsn hc
        rw [hok] at herr
        simp at herr
    have hfail : chosenParserFails env s = true →
        ∃ e, parseFlagsFromArgs env usage args w = .fatal e := by
      intro hc
      rcases parse_returned_or_fatal w hd hv with ⟨flags, w3, h⟩ | hf
      · have hok := returned_expire hd h
        rw [resolveExpireOffset_of_fails hsn hc] at hok
        simp at hok
      · exact hf
    have hnamed : (∀ name raw,
        parseFlagsFromArgs env usage args w = .fatal (.option name raw) →
          name = "--unixtime-in-milliseconds") →
        ∀ e, parseFlagsFromArgs env usage args w = .fatal e →
          parseFlagsFromArgs env usage args w =
            .fatal (.option "--unixtime-in-milliseconds" s) := by
      intro hother e he
      obtain ⟨name, raw, hname, hraw, _⟩ := parse_fatal_name hd hv he
      subst hname
      have hn := hother name raw he
      subst hn
      rw [hsn] at hraw
      have hss : raw = s := (Option.some.inj hraw).symm
      subst hss
      exact he
    refine ⟨honly, hfail, ?_⟩
    intro hother
    refine ⟨⟨?_, hfail⟩, ?_, ?_⟩
    · rintro ⟨e, he⟩
      exact honly (hnamed hother e he)
    · intro hc
      obtain ⟨e, he⟩ := hfail hc
      exact hnamed hother e he
    · intro hc
      rcases parse_returned_or_fatal w hd hv with hret | ⟨e, he⟩
      · exact hret
      · have h1 := honly (hnamed hother e he)
        rw [hc] at h1
        simp at h1
  refine ⟨hmain, ?_, ?_⟩
  · intro hnone
    constructor
    · intro flags w3 h
      have hok := returned_expire hd h
      unfold resolveExpireOffset at hok
      simp only [hnone, Except.ok.injEq] at hok
      exact hok.symm
    · intro raw h
      have h1 := (fatal_unixtime_value hd hv h).1
      rw [hnone] at h1
      simp at h1
  · intro hs
    have hdata : ("1h" : String).data = ['1', 'h'] := by decide
    have hc : chosenParserFails env "1h" =
        (env.timeParse "2006-01-02 15:04:05" "1h").isNone := by
      unfold chosenParserFails
      simp only [hdata]
      have h1 : ¬ (('1' : Char) = '+' ∨ ('1' : Char) = '-') := by decide
      have h2 : ¬ (('1' : Char) = '@') := by decide
      simp only [h1, h2, if_false]
    refine ⟨hc, ?_⟩
    intro hreject
    apply (hmain "1h" hs (by decide)).2.1
    rw [hc, hreject]
    rfl

/-- Worked input for C13: "1h" is fatal at the option although the duration
parser of the environment reads "1h" as one hour, because the date-time
parser is the one selected and it rejects "1h". -/
theorem expire_offset_dispatch_witness :
    (durationEnv unsignedHourArgs 0).docoptParse "" [] = some unsignedHourArgs ∧
    unsignedHourArgs "--version" = .bool false ∧
    unsignedHourArgs "--unixtime-in-milliseconds" = .str "1h" ∧
    (durationEnv unsignedHourArgs 0).ParseDuration "1h" = some 3600000000000 ∧
    (durationEnv unsignedHourArgs 0).timeParse "2006-01-02 15:04:05" "1h" = none ∧
    parseFlagsFromArgs (durationEnv unsignedHourArgs 0) "" [] (World.initial 1) =
      .fatal (.option "--unixtime-in-milliseconds" "1h") ∧
    chosenParserFails (durationEnv unsignedHourArgs 0) "1h" = true :=
  have hrun : parseFlagsFromArgs (durationEnv unsignedHourArgs 0) "" [] (World.initial 1) =
      .fatal (.option "--unixtime-in-milliseconds" "1h") := by decide
  ⟨rfl, by decide, by decide, by decide, rfl, hrun,
    ((expire_offset_dispatch (durationEnv unsignedHourArgs 0) "" [] (World.initial 1)
      unsignedHourArgs rfl (by decide)).1 "1h" (by decide) (by decide)).1 hrun⟩

/-! ## C11: signed durations do not depend on the clock -/

theorem resolveExpireOffset_signed {env : Env} {d : Args} {s : String} {c : Char}
    {rest : List Char}
    (hs : (d "--unixtime-in-milliseconds").nonEmptyString = some s)
    (hc : s.data = c :: rest) (hsign : c = '+' ∨ c = '-') :
    resolveExpireOffset env d =
      match env.ParseDuration (env.ToLower s) with
      | none => .error (.option "--unixtime-in-milliseconds" s)
      | some dur => .ok dur := by
  unfold resolveExpireOffset
  have hsign2 : c = '-' ∨ c = '+' := hsign.symm
  simp only [hs, hc, hsign2, if_true]

/-- The clock is read by the expire-offset step only. -/
theorem parse_clock_congr (env : Env) (now2 : Int) (usage : String) (args : List String)
    (w : World)
    (h : ∀ d, env.docoptParse usage args = some d →
      resolveExpireOffset { env with now := now2 } d = resolveExpireOffset env d) :
    parseFlagsFromArgs { env with now := now2 } usage args w =
      parseFlagsFromArgs env usage args w := by
  unfold parseFlagsFromArgs
  cases hd : env.docoptParse usage args with
  | none =>
    have hd2 : ({ env with now := now2 } : Env).docoptParse usage args = none := hd
    simp only [hd2]
  | some d =>
    have hd2 : ({ env with now := now2 } : Env).docoptParse usage args = some d := hd
    have hn : resolveNcpu { env with now := now2 } d w = resolveNcpu env d w := rfl
    have ht : ∀ cur, resolveTmpFile { env with now := now2 } d cur =
        resolveTmpFile env d cur := fun _ => rfl
    simp only [hd2, hn, ht, h d hd]

/-- C11: for a value `s` of `--unixtime-in-milliseconds` whose first character
is `+` or `-` and whose lower-cased form the duration parser reads as `dur`
(option map parsed, `--version` false): every returning call has
`ExpireOffset = dur`; no failure names the option, and the call returns with
that offset when no other option fails; and the whole outcome is the same for
every value of the clock. -/
theorem expire_offset_signed_duration (env : Env) (usage : String) (args : List String)
    (w : World) (d : Args) (s : String) (c : Char) (rest : List Char) (dur : Int)
    (hd : env.docoptParse usage args = some d) (hv : d "--version" = .bool false)
    (hs : d "--unixtime-in-milliseconds" = .str s)
    (hc : s.data = c :: rest) (hsign : c = '+' ∨ c = '-')
    (hdur : env.ParseDuration (env.ToLower s) = some dur) :
    (∀ flags w3, parseFlagsFromArgs env usage args w = .returned flags w3 →
      flags.ExpireOffset = dur) ∧
    (∀ raw, parseFlagsFromArgs env usage args w ≠
      .fatal (.option "--unixtime-in-milliseconds" raw)) ∧
    ((∀ name raw, parseFlagsFromArgs env usage args w = .fatal (.option name raw) →
        name = "--unixtime-in-milliseconds") →
      ∃ flags w3, parseFlagsFromArgs env usage args w = .returned flags w3 ∧
        flags.ExpireOffset = dur) ∧
    (∀ now1 now2,
      parseFlagsFromArgs { env with now := now1 } usage args w =
        parseFlagsFromArgs { env with now := now2 } usage args w) := by
  have hne : s ≠ "" := by
    intro h0
    rw [h0] at hc
    simp at hc
  have hsn := nonEmptyString_str hs hne
  have hstep : resolveExpireOffset env d = .ok dur := by
    rw [resolveExpireOffset_signed hsn hc hsign, hdur]
  have hret : ∀ flags w3, parseFlagsFromArgs env usage args w = .returned flags w3 →
      flags.ExpireOffset = dur := by
    intro flags w3 h
    have hok := returned_expire hd h
    rw [hstep] at hok
    exact (Except.ok.inj hok).symm
  have hnofatal : ∀ raw, parseFlagsFromArgs env usage args w ≠
      .fatal (.option "--unixtime-in-milliseconds" raw) := by
    intro raw h
    have herr := (fatal_unixtime_value hd hv h).2
    rw [hstep] at herr
    simp at herr
  have hclock : ∀ t, parseFlagsFromArgs { env with now := t } usage args w =
      parseFlagsFromArgs env usage args w := by
    intro t
    apply parse_clock_congr
    intro d1 hd1
    have hdd := docopt_unique hd hd1
    subst hdd
    rw [resolveExpireOffset_signed hsn hc hsign, resolveExpireOffset_signed hsn hc hsign]
  refine ⟨hret, hnofatal, ?_, ?_⟩
  · intro hother
    rcases parse_returned_or_fatal w hd hv with ⟨flags, w3, h⟩ | ⟨e, he⟩
    · exact ⟨flags, w3, h, hret flags w3 h⟩
    · obtain ⟨name, raw, hname, _, _⟩ := parse_fatal_name hd hv he
      subst hname
      have hn := hother name raw he
      subst hn
      exact absurd he (hnofatal raw)
  · intro now1 now2
    rw [hclock now1, hclock now2]

/-- Worked input for C11: "+1h" and "+1H" give 3600000000000 ns, "-1h" gives
-3600000000000 ns, and "+1H" gives the same offset with the clock at 0 and
at 1600000000 s. -/
theorem expire_offset_signed_duration_witness :
    (durationEnv plusUpperHourArgs 0).docoptParse "" [] = some plusUpperHourArgs ∧
    plusUpperHourArgs "--version" = .bool false ∧
    plusUpperHourArgs "--unixtime-in-milliseconds" = .str "+1H" ∧
    ("+1H" : String).data = '+' :: ['1', 'H'] ∧
    (durationEnv plusUpperHourArgs 0).ToLower "+1H" = "+1h" ∧
    (durationEnv plusUpperHourArgs 0).ParseDuration "+1h" = some 3600000000000 ∧
    (∃ flags w3,
      parseFlagsFromArgs (durationEnv plusHourArgs 0) "" [] (World.initial 1) =
        .returned flags w3 ∧ flags.ExpireOffset = 3600000000000) ∧
    (∃ flags w3,
      parseFlagsFromArgs (durationEnv minusHourArgs 0) "" [] (World.initial 1) =
        .returned flags w3 ∧ flags.ExpireOffset = -3600000000000) ∧
    (∃ flags w3,
      parseFlagsFromArgs (durationEnv plusUpperHourArgs 0) "" [] (World.initial 1) =
        .returned flags w3 ∧ flags.ExpireOffset = 3600000000000) ∧
    parseFlagsFromArgs (durationEnv plusUpperHourArgs 0) "" [] (World.initial 1) =
      parseFlagsFromArgs (durationEnv plusUpperHourArgs 1600000000000000000) "" []
        (World.initial 1) :=
  have hplus : parseFlagsFromArgs (durationEnv plusHourArgs 0) "" [] (World.initial 1) =
      .returned
        { Source := "", Target := "", Parallel := 16, AofPath := "",
          TmpFile := { Path := "", Size := 0 }, ExpireOffset := 3600000000000 }
        { gomaxprocs := 4, acceptDB := .all, dbMap := [], acceptWrites := 0 } := by
    decide
  have hminus : parseFlagsFromArgs (durationEnv minusHourArgs 0) "" [] (World.initial 1) =
      .returned
        { Source := "", Target := "", Parallel := 16, AofPath := "",
          TmpFile := { Path := "", Size := 0 }, ExpireOffset := -3600000000000 }
        { gomaxprocs := 4, acceptDB := .all, dbMap := [], acceptWrites := 0 } := by
    decide
  have hupper : parseFlagsFromArgs (durationEnv plusUpperHourArgs 0) "" []
      (World.initial 1) =
      .returned
        { Source := "", Target := "", Parallel := 16, AofPath := "",
          TmpFile := { Path := "", Size := 0 }, ExpireOffset := 3600000000000 }
        { gomaxprocs := 4, acceptDB := .all, dbMap := [], acceptWrites := 0 } := by
    decide
  ⟨rfl, by decide, by decide, by decide, by decide, by decide,
    ⟨_, _, hplus,
      (expire_offset_signed_duration (durationEnv plusHourArgs 0) "" [] (World.initial 1)
        plusHourArgs "+1h" '+' ['1', 'h'] 3600000000000 rfl (by decide) (by decide)
        (by decide) (by decide) (by decide)).1 _ _ hplus⟩,
    ⟨_, _, hminus,
      (expire_offset_signed_duration (durationEnv minusHourArgs 0) "" [] (World.initial 1)
        minusHourArgs "-1h" '-' ['1', 'h'] (-3600000000000) rfl (by decide) (by decide)
        (by decide) (by decide) (by decide)).1 _ _ hminus⟩,
    ⟨_, _, hupper,
      (expire_offset_signed_duration (durationEnv plusUpperHourArgs 0) "" []
        (World.initial 1) plusUpperHourArgs "+1H" '+' ['1', 'H'] 3600000000000 rfl
        (by decide) (by decide) (by decide) (by decide) (by decide)).1 _ _ hupper⟩,
    (expire_offset_signed_duration (durationEnv plusUpperHourArgs 0) "" []
      (World.initial 1) plusUpperHourArgs "+1H" '+' ['1', 'H'] 3600000000000 rfl
      (by decide) (by decide) (by decide) (by decide) (by decide)).2.2.2 0
      1600000000000000000⟩

end RedisPort
